import Mathlib

set_option maxRecDepth 8192

/-!
Verification of the 3DB → glTF buffer serializer of the Diggles3db-Converter
repository (`src/python3/lib/export.py`, function `export_to_gltf`).

The decoded model (`lib/parse_3db.Model`) is embedded from its usage in
`export.py`: `model.name`, `model.materials` (`.name`, `.path`),
`model.meshes` (`.links` with `.material`, `.points`, `.triangles`,
`.texture_coordinates`), `model.animations` (`.name`, `.meshes`) and the three
geometry pools `points_data`, `triangle_data`, `texture_coordinates_data`.

Coordinates are modelled as rationals (Python floats are used only through
arithmetic that is exact on the inputs of interest, and `struct.pack` is a
deterministic function of the packed value, so byte-identity of packed output
follows from identity of the values; the byte streams are modelled as the
lists of packed values, with byte offsets kept as `4 *` the number of packed
values, matching the 4-byte width of the float and u32 packing formats).
-/

/-- A 3-component point, as used in `model.points_data` entries. -/
abbrev Vec3 : Type := ℚ × ℚ × ℚ

/-- A 2-component texture coordinate, as in `model.texture_coordinates_data`. -/
abbrev Vec2 : Type := ℚ × ℚ

/-- Mesh link of `lib/parse_3db`: a material index and three pool indices
(usage in `export.py` lines 629-633, 712). -/
structure MeshLink where
  material : Nat
  points : Nat
  triangles : Nat
  texture_coordinates : Nat
deriving DecidableEq, Repr

/-- A decoded mesh: a named list of links (`mesh.links`, line 629). -/
structure DbMesh where
  name : String
  links : List MeshLink
deriving DecidableEq, Repr

/-- A decoded material (`material.name`, `material.path`). Names are modelled
as already-decoded strings (the Python `bytes` → `str` lossy decode is the
identity on the names considered here). -/
structure DbMaterial where
  name : String
  path : String
deriving DecidableEq, Repr

/-- A decoded animation: a name and an ordered list of mesh indices; the
position in `meshes` is the frame number (`export.py` line 621). -/
structure DbAnimation where
  name : String
  meshes : List Nat
deriving DecidableEq, Repr

/-- The decoded `Model` aggregate, embedded from its usage in `export.py`. -/
structure Model where
  name : String
  materials : List DbMaterial
  meshes : List DbMesh
  animations : List DbAnimation
  points_data : List (List Vec3)
  triangle_data : List (List Nat)
  texture_coordinates_data : List (List Vec2)
deriving DecidableEq, Repr

/-- Function `transform_point` (`export.py` lines 12-16): `(p - 0.5) * 100`
component-wise, with `scale = 100`. -/
def transform_point (p : Vec3) : Vec3 :=
  ((p.1 - 1/2) * 100, (p.2.1 - 1/2) * 100, (p.2.2 - 1/2) * 100)

/-- glTF accessor record as filled in by `export_to_gltf`
(lines 683-709).  `componentType` keeps the numeric glTF constants
(`FLOAT = 5126`, `UNSIGNED_INT = 5125`); `min`/`max` are only set on
position accessors.  `byteOffset` is in bytes (4 bytes per packed value). -/
structure Accessor where
  bufferView : Nat
  byteOffset : Nat
  componentType : Nat
  count : Nat
  type : String
  min : Option (List ℚ)
  max : Option (List ℚ)
deriving DecidableEq, Repr

/-- The single primitive of an emitted glTF mesh (lines 718-727):
accessor indices for POSITION, TEXCOORD_0 and indices, plus the material. -/
structure Primitive where
  position : Nat
  texcoord : Nat
  indices : Nat
  material : Nat
deriving DecidableEq, Repr

/-- An emitted glTF mesh (one primitive per mesh, line 718). -/
structure GltfMesh where
  primitives : List Primitive
deriving DecidableEq, Repr

/-- An emitted glTF node (line 763): a mesh index and a generated name. -/
structure GNode where
  mesh : Nat
  name : String
deriving DecidableEq, Repr

/-- The warnings printed by `export_to_gltf`, abstracted to the code site and
the (animation, frame, link) position they report. -/
inductive Warning where
  | meshIndexOutOfRange (animIdx frameIdx : Nat)
  | resolveError (animIdx frameIdx linkIdx : Nat)
  | emptyPoints (animIdx frameIdx linkIdx : Nat)
  | emptyTriangles (animIdx frameIdx linkIdx : Nat)
  | uvMismatch (animIdx frameIdx linkIdx : Nat)
  | emptyMesh (animIdx frameIdx linkIdx : Nat)
  | invalidMaterial (animIdx frameIdx linkIdx : Nat)
deriving DecidableEq, Repr

/-- The mutable serializer state: the UV pool (aliased with
`model.texture_coordinates_data` and mutated in place by line 651), the two
byte streams (`vertex_byte_array`, `index_byte_array`, as lists of packed
values), and the growing `accessors`, `meshes`, `nodes`, warning lists. -/
structure ExportState where
  uvPool : List (List Vec2)
  vertexStream : List ℚ
  indexStream : List Nat
  accessors : List Accessor
  gltfMeshes : List GltfMesh
  nodes : List GNode
  warnings : List Warning
deriving DecidableEq, Repr

/-- Append one warning (a `print` in the Python source). -/
def addWarning (s : ExportState) (w : Warning) : ExportState :=
  ⟨s.uvPool, s.vertexStream, s.indexStream, s.accessors, s.gltfMeshes,
   s.nodes, s.warnings ++ [w]⟩

/-- Flatten points into the packed float sequence (lines 666-668). -/
def flat3 (vs : List Vec3) : List ℚ :=
  (vs.map (fun v => [v.1, v.2.1, v.2.2])).flatten

/-- Flatten texture coordinates into the packed float sequence
(lines 674-676). -/
def flat2 (vs : List Vec2) : List ℚ :=
  (vs.map (fun v => [v.1, v.2])).flatten

/-- Python `min` over a nonempty list (empty case unreachable at call sites,
defaulted to 0), as used at line 670. -/
def listMinQ : List ℚ → ℚ
  | [] => 0
  | x :: xs => xs.foldl min x

/-- Python `max` over a nonempty list, as used at line 671. -/
def listMaxQ : List ℚ → ℚ
  | [] => 0
  | x :: xs => xs.foldl max x

/-- Value `mins` of line 670: per-axis minima of the transformed vertices. -/
def minsOf (vs : List Vec3) : List ℚ :=
  [listMinQ (vs.map fun v => v.1),
   listMinQ (vs.map fun v => v.2.1),
   listMinQ (vs.map fun v => v.2.2)]

/-- Value `maxs` of line 671: per-axis maxima of the transformed vertices. -/
def maxsOf (vs : List Vec3) : List ℚ :=
  [listMaxQ (vs.map fun v => v.1),
   listMaxQ (vs.map fun v => v.2.1),
   listMaxQ (vs.map fun v => v.2.2)]

/-- f-string `{n:02d}`: decimal, zero-padded to width 2. -/
def pad2 (n : Nat) : String :=
  if n < 10 then ("0" ++ toString n) else toString n

/-- The name scrubbing of lines 742 and 762: two `replace` calls that drop
the byte-literal prefix `b` followed by a quote and every remaining single
quote character (here written with the escape `\x27`), then `strip()`. -/
def cleanName (s : String) : String :=
  ((s.replace ("b\x27") ("")).replace ("\x27") ("")).trim

/-- The `(0.0, 0.0)` texture-coordinate stub used for padding (line 651). -/
def uvZero : Vec2 := ((0 : ℚ), (0 : ℚ))

/-- The glTF `ComponentType.FLOAT` constant. -/
def FLOAT_T : Nat := 5126

/-- The glTF `ComponentType.UNSIGNED_INT` constant. -/
def UINT_T : Nat := 5125

/-- One iteration of the inner link loop of `export_to_gltf`
(lines 629-763), embedded statement by statement:

* resolve the three pool entries (lines 631-633); an out-of-range index
  raises `IndexError`, caught at line 662 → warning, `continue`;
* empty `points` / `triangles` → warning, `continue` (lines 636-642);
* transform the points (line 644);
* reconcile UV length (lines 647-653) — note that the shorter-UV branch
  calls `list.extend` on the pool entry itself, mutating the pool in place,
  while the longer-UV branch rebinds the local to a fresh slice;
* append position, UV floats and triangle indices to the streams and record
  the three accessors (lines 666-709);
* substitute material 0 for an out-of-range material index (lines 712-715);
* append the mesh and the named node (lines 717-763). -/
def processLink (model : Model) (animName : String)
    (animIdx frameIdx linkIdx : Nat) (link : MeshLink) (s : ExportState) :
    ExportState :=
  match model.triangle_data.get? link.triangles,
        model.points_data.get? link.points,
        s.uvPool.get? link.texture_coordinates with
  | some triangles, some points, some uv0 =>
    if points = [] then
      addWarning s (.emptyPoints animIdx frameIdx linkIdx)
    else if triangles = [] then
      addWarning s (.emptyTriangles animIdx frameIdx linkIdx)
    else
      let vertices := points.map transform_point
      let mismatch := uv0.length ≠ vertices.length
      let uv := if uv0.length < vertices.length then
                  uv0 ++ List.replicate (vertices.length - uv0.length) uvZero
                else if uv0.length > vertices.length then
                  uv0.take vertices.length
                else uv0
      let uvPool1 := if uv0.length < vertices.length then
                       s.uvPool.set link.texture_coordinates uv
                     else s.uvPool
      let warnings1 := if mismatch then
                         s.warnings ++ [.uvMismatch animIdx frameIdx linkIdx]
                       else s.warnings
      let vertex_data_start := 4 * s.vertexStream.length
      let stream1 := s.vertexStream ++ flat3 vertices
      let mins := minsOf vertices
      let maxs := maxsOf vertices
      let texture_coords_start := 4 * stream1.length
      let stream2 := stream1 ++ flat2 uv
      let indices_start := 4 * s.indexStream.length
      let istream := s.indexStream ++ triangles
      let position_index := s.accessors.length
      let accPos : Accessor :=
        ⟨0, vertex_data_start, FLOAT_T, vertices.length, "VEC3",
         some mins, some maxs⟩
      let accUV : Accessor :=
        ⟨0, texture_coords_start, FLOAT_T, uv.length, "VEC2", none, none⟩
      let accIdx : Accessor :=
        ⟨1, indices_start, UINT_T, triangles.length, "SCALAR", none, none⟩
      let material_index :=
        if link.material ≥ model.materials.length then 0 else link.material
      let warnings2 :=
        if link.material ≥ model.materials.length then
          warnings1 ++ [.invalidMaterial animIdx frameIdx linkIdx]
        else warnings1
      let material_name :=
        match model.materials.get? material_index with
        | some m => cleanName m.name
        | none => ""
      let mesh_index := s.gltfMeshes.length
      let node_name := cleanName
        (animName ++ "_" ++ pad2 animIdx ++ "_frame" ++ pad2 frameIdx ++
         "_" ++ material_name)
      ⟨uvPool1, stream2, istream,
       s.accessors ++ [accPos, accUV, accIdx],
       s.gltfMeshes ++ [⟨[⟨position_index, position_index + 1,
                           position_index + 2, material_index⟩]⟩],
       s.nodes ++ [⟨mesh_index, node_name⟩],
       warnings2⟩
  | _, _, _ => addWarning s (.resolveError animIdx frameIdx linkIdx)

/-- The link loop `for link_idx, mesh_link in enumerate(mesh.links)`
(line 629). -/
def processLinks (model : Model) (animName : String)
    (animIdx frameIdx : Nat) : Nat → List MeshLink → ExportState → ExportState
  | _, [], s => s
  | linkIdx, link :: rest, s =>
      processLinks model animName animIdx frameIdx (linkIdx + 1) rest
        (processLink model animName animIdx frameIdx linkIdx link s)

/-- The frame loop `for frame_idx, mesh_idx in enumerate(animation.meshes)`
(lines 621-624): an out-of-range mesh index is skipped with a warning. -/
def processFrames (model : Model) (animName : String) (animIdx : Nat) :
    Nat → List Nat → ExportState → ExportState
  | _, [], s => s
  | frameIdx, meshIdx :: rest, s =>
      processFrames model animName animIdx (frameIdx + 1) rest
        (match model.meshes.get? meshIdx with
         | none => addWarning s (.meshIndexOutOfRange animIdx frameIdx)
         | some mesh => processLinks model animName animIdx frameIdx 0
             mesh.links s)

/-- The animation loop `for anim_idx, animation in enumerate(model.animations)`
(line 607).  The `anim_name_indexer` occurrence counter maintained at lines
616-619 is threaded by the Python code but never read when the node name is
built (line 758 uses `anim_idx`), so it has no effect on the output and is
not part of the state. -/
def processAnims (model : Model) : Nat → List DbAnimation → ExportState →
    ExportState
  | _, [], s => s
  | animIdx, anim :: rest, s =>
      processAnims model (animIdx + 1) rest
        (processFrames model anim.name animIdx 0 anim.meshes s)

/-- Function `export_to_gltf` (lines 542-763), restricted to the serialization core:
the state after running the full animation/frame/link loop nest starting from
empty streams, with the UV pool aliasing `model.texture_coordinates_data`. -/
def export_to_gltf (model : Model) : ExportState :=
  processAnims model 0 model.animations
    ⟨model.texture_coordinates_data, [], [], [], [], [], []⟩

/-! ## Pure description of the serializer output

The loop nest above threads one mutable state.  The definitions below give a
pure description of the same output: which (animation, frame, link) positions
emit geometry, and what each emission contributes. -/

/-- The points pool entry a link resolves (line 632), empty when the pool
index is out of range. -/
def pointsOf (model : Model) (link : MeshLink) : List Vec3 :=
  (model.points_data.get? link.points).getD []

/-- The triangles pool entry a link resolves (line 631). -/
def trianglesOf (model : Model) (link : MeshLink) : List Nat :=
  (model.triangle_data.get? link.triangles).getD []

/-- The original (pre-serialization) UV pool entry a link references. -/
def uvOrigOf (model : Model) (link : MeshLink) : List Vec2 :=
  (model.texture_coordinates_data.get? link.texture_coordinates).getD []

/-- The transformed vertex list of a link (line 644). -/
def verticesOf (model : Model) (link : MeshLink) : List Vec3 :=
  (pointsOf model link).map transform_point

/-- Pad with `(0,0)` or truncate a UV list to exactly `n` entries — the net
effect of the reconciliation at lines 647-653 on the emitted UV data. -/
def padUV (n : Nat) (uv : List Vec2) : List Vec2 :=
  (uv ++ List.replicate n uvZero).take n

/-- The UV entries emitted for a link: the original pool entry reconciled to
the vertex count. -/
def uvEmitted (model : Model) (link : MeshLink) : List Vec2 :=
  padUV (verticesOf model link).length (uvOrigOf model link)

/-- The packed position floats a link contributes (lines 666-668). -/
def posFloats (model : Model) (link : MeshLink) : List ℚ :=
  flat3 (verticesOf model link)

/-- The packed UV floats a link contributes (lines 674-676). -/
def uvFloats (model : Model) (link : MeshLink) : List ℚ :=
  flat2 (uvEmitted model link)

/-- Everything a link appends to the vertex stream: positions then UVs. -/
def linkVFloats (model : Model) (link : MeshLink) : List ℚ :=
  posFloats model link ++ uvFloats model link

/-- Whether a link is emitted rather than skipped: all three pool indices in
range and both the points and the triangles entries nonempty (the skip
conditions of lines 630-664).  Note the UV length is never consulted. -/
def goodLink (model : Model) (link : MeshLink) : Bool :=
  match model.triangle_data.get? link.triangles,
        model.points_data.get? link.points,
        model.texture_coordinates_data.get? link.texture_coordinates with
  | some ts, some ps, some _ => !ps.isEmpty && !ts.isEmpty
  | _, _, _ => false

/-- One emission: the traversal position, the animation name and the link. -/
structure Emit where
  animIdx : Nat
  frameIdx : Nat
  linkIdx : Nat
  animName : String
  link : MeshLink
deriving DecidableEq, Repr

/-- Emissions of the link list of one mesh, `linkIdx` counting from `li`. -/
def linkEmits (model : Model) (animName : String) (animIdx frameIdx : Nat) :
    Nat → List MeshLink → List Emit
  | _, [] => []
  | linkIdx, link :: rest =>
      if goodLink model link then
        ⟨animIdx, frameIdx, linkIdx, animName, link⟩ ::
          linkEmits model animName animIdx frameIdx (linkIdx + 1) rest
      else linkEmits model animName animIdx frameIdx (linkIdx + 1) rest

/-- Emissions of the frame list of one animation, `frameIdx` counting from `fi`;
frames whose mesh index is out of range emit nothing (line 622). -/
def frameEmits (model : Model) (animName : String) (animIdx : Nat) :
    Nat → List Nat → List Emit
  | _, [] => []
  | frameIdx, meshIdx :: rest =>
      (match model.meshes.get? meshIdx with
       | none => []
       | some mesh => linkEmits model animName animIdx frameIdx 0 mesh.links) ++
      frameEmits model animName animIdx (frameIdx + 1) rest

/-- Emissions of an animation list, `animIdx` counting from `ai`. -/
def animEmits (model : Model) : Nat → List DbAnimation → List Emit
  | _, [] => []
  | animIdx, anim :: rest =>
      frameEmits model anim.name animIdx 0 anim.meshes ++
        animEmits model (animIdx + 1) rest

/-- All emissions of a model, in serialization order. -/
def emittedLinks (model : Model) : List Emit :=
  animEmits model 0 model.animations

/-- The material index bound to the primitive of a link: its own index, or
0 when it is out of range (lines 712-715). -/
def matIndexOf (model : Model) (link : MeshLink) : Nat :=
  if link.material ≥ model.materials.length then 0 else link.material

/-- The cleaned material name used in the node name (lines 730-742). -/
def matNameOf (model : Model) (link : MeshLink) : String :=
  match model.materials.get? (matIndexOf model link) with
  | some m => cleanName m.name
  | none => ""

/-- The generated node name (lines 758-762):
`f"{anim_name}_{anim_idx:02d}_frame{frame_idx:02d}_{material_name}"`, scrubbed.
The animation component is the *global* animation index `anim_idx`, and the
frame number is zero-padded to width 2. -/
def nodeNameOf (model : Model) (e : Emit) : String :=
  cleanName (e.animName ++ "_" ++ pad2 e.animIdx ++ "_frame" ++
    pad2 e.frameIdx ++ "_" ++ matNameOf model e.link)

/-- The position accessor a link records, `vlen` packed floats already in the
vertex stream (lines 683-691). -/
def posAccessorOf (model : Model) (link : MeshLink) (vlen : Nat) : Accessor :=
  ⟨0, 4 * vlen, FLOAT_T, (verticesOf model link).length, "VEC3",
   some (minsOf (verticesOf model link)), some (maxsOf (verticesOf model link))⟩

/-- The UV accessor a link records (lines 693-700). -/
def uvAccessorOf (model : Model) (link : MeshLink) (vlen : Nat) : Accessor :=
  ⟨0, 4 * (vlen + (posFloats model link).length), FLOAT_T,
   (uvEmitted model link).length, "VEC2", none, none⟩

/-- The index accessor a link records, `ilen` indices already in the index
stream (lines 702-709). -/
def idxAccessorOf (model : Model) (link : MeshLink) (ilen : Nat) : Accessor :=
  ⟨1, 4 * ilen, UINT_T, (trianglesOf model link).length, "SCALAR", none, none⟩

/-- The accessor list generated by a sequence of emissions, starting from
`vlen` packed floats and `ilen` packed indices already present. -/
def accsFrom (model : Model) : List Emit → Nat → Nat → List Accessor
  | [], _, _ => []
  | e :: rest, vlen, ilen =>
      posAccessorOf model e.link vlen :: uvAccessorOf model e.link vlen ::
      idxAccessorOf model e.link ilen ::
      accsFrom model rest (vlen + (linkVFloats model e.link).length)
        (ilen + (trianglesOf model e.link).length)

/-- The glTF mesh list generated by a sequence of emissions, starting with
`nacc` accessors already recorded. -/
def gmFrom (model : Model) : List Emit → Nat → List GltfMesh
  | [], _ => []
  | e :: rest, nacc =>
      ⟨[⟨nacc, nacc + 1, nacc + 2, matIndexOf model e.link⟩]⟩ ::
        gmFrom model rest (nacc + 3)

/-- The node list generated by a sequence of emissions, starting with
`nmesh` glTF meshes already recorded. -/
def ndFrom (model : Model) : List Emit → Nat → List GNode
  | [], _ => []
  | e :: rest, nmesh => ⟨nmesh, nodeNameOf model e⟩ :: ndFrom model rest (nmesh + 1)

/-- The full vertex stream, described purely. -/
def vertexStreamOf (model : Model) : List ℚ :=
  ((emittedLinks model).map (fun e => linkVFloats model e.link)).flatten

/-- The full index stream, described purely. -/
def indexStreamOf (model : Model) : List Nat :=
  ((emittedLinks model).map (fun e => trianglesOf model e.link)).flatten

/-- Packed floats contributed to the vertex stream by a list of emissions. -/
def vTot (model : Model) (es : List Emit) : Nat :=
  (es.map (fun e => (linkVFloats model e.link).length)).sum

/-- Indices contributed to the index stream by a list of emissions. -/
def iTot (model : Model) (es : List Emit) : Nat :=
  (es.map (fun e => (trianglesOf model e.link).length)).sum

/-- Relation between the original UV pool and the evolving serializer pool:
same pool size, and every entry is its original value possibly extended by
`(0,0)` padding (the only in-place write, line 651). -/
def PoolOk (orig pool : List (List Vec2)) : Prop :=
  pool.length = orig.length ∧
  ∀ i e, pool.get? i = some e →
    ∃ o k, orig.get? i = some o ∧ e = o ++ List.replicate k uvZero

/-- Value `m` is the least element of `xs`. -/
def isLeastOf (m : ℚ) (xs : List ℚ) : Prop := m ∈ xs ∧ ∀ x ∈ xs, m ≤ x

/-- Value `m` is the greatest element of `xs`. -/
def isGreatestOf (m : ℚ) (xs : List ℚ) : Prop := m ∈ xs ∧ ∀ x ∈ xs, x ≤ m

/-- Whether the mesh index of a frame resolves to an existing mesh having at
least one emitted (non-skipped) link. -/
def frameGood (model : Model) (mi : Nat) : Bool :=
  match model.meshes.get? mi with
  | none => false
  | some mesh => mesh.links.any (fun l => goodLink model l)

/-- The number of distinct frame indices of animation `a` for which at least
one node is produced (every produced frame index is below the length of the
`meshes` list of the animation, so ranging over it is exhaustive). -/
def frameGroupCount (model : Model) (a : Nat) : Nat :=
  match model.animations.get? a with
  | none => 0
  | some anim =>
    ((List.range anim.meshes.length).filter
      (fun fi => (emittedLinks model).any
        (fun e => e.animIdx == a && e.frameIdx == fi))).length

/-! ## Concrete test models -/

/-- The spec §8 concrete scenario: one material `"skin"`, one mesh with one
link (material 0, all pool indices 0), points pool `[(0,0,0),(1,0,0),(0,1,0)]`,
triangles pool `[0,1,2]`, UV pool `[(0,0),(1,0),(0,1)]`, one animation
`"idle"` with meshes `[0]`. -/
def modelConcrete : Model :=
  ⟨"model", [⟨"skin", "tex\\skin.tga"⟩],
   [⟨"mesh0", [⟨0, 0, 0, 0⟩]⟩],
   [⟨"idle", [0]⟩],
   [[(0, 0, 0), (1, 0, 0), (0, 1, 0)]],
   [[0, 1, 2]],
   [[(0, 0), (1, 0), (0, 1)]]⟩

/-- A model whose single link has 3 points but a 1-entry UV pool entry. -/
def modelShortUV : Model :=
  ⟨"model", [⟨"skin", "p"⟩], [⟨"mesh0", [⟨0, 0, 0, 0⟩]⟩], [⟨"idle", [0]⟩],
   [[(0, 0, 0), (1, 0, 0), (0, 1, 0)]], [[0, 1, 2]], [[(1/4, 1/4)]]⟩

/-- Two animations named `"walk"` separated by one named `"run"`. -/
def modelDupNames : Model :=
  ⟨"model", [⟨"skin", "p"⟩], [⟨"mesh0", [⟨0, 0, 0, 0⟩]⟩],
   [⟨"walk", [0]⟩, ⟨"run", [0]⟩, ⟨"walk", [0]⟩],
   [[(0, 0, 0), (1, 0, 0), (0, 1, 0)]], [[0, 1, 2]],
   [[(0, 0), (1, 0), (0, 1)]]⟩

/-- 5 points and 3 UVs: the reconciliation example of the spec. -/
def modelPad : Model :=
  ⟨"model", [⟨"skin", "p"⟩], [⟨"mesh0", [⟨0, 0, 0, 0⟩]⟩], [⟨"idle", [0]⟩],
   [[(0, 0, 0), (1, 0, 0), (0, 1, 0), (1, 1, 0), (0, 0, 1)]],
   [[0, 1, 2]],
   [[(1/10, 1/5), (3/10, 2/5), (1/2, 3/5)]]⟩

/-- One animation with frames `[0, 5]`; mesh index 5 is out of range. -/
def modelBadFrame : Model :=
  ⟨"model", [⟨"skin", "p"⟩], [⟨"mesh0", [⟨0, 0, 0, 0⟩]⟩], [⟨"idle", [0, 5]⟩],
   [[(0, 0, 0), (1, 0, 0), (0, 1, 0)]], [[0, 1, 2]],
   [[(0, 0), (1, 0), (0, 1)]]⟩

/-- No materials at all; the material index 0 of the link already dangles. -/
def modelNoMats : Model :=
  ⟨"model", [], [⟨"mesh0", [⟨0, 0, 0, 0⟩]⟩], [⟨"idle", [0]⟩],
   [[(0, 0, 0), (1, 0, 0), (0, 1, 0)]], [[0, 1, 2]],
   [[(0, 0), (1, 0), (0, 1)]]⟩

/-- One material but the link references material 1 = `materials.len()`. -/
def modelBadMat : Model :=
  ⟨"model", [⟨"skin", "p"⟩], [⟨"mesh0", [⟨1, 0, 0, 0⟩]⟩], [⟨"idle", [0]⟩],
   [[(0, 0, 0), (1, 0, 0), (0, 1, 0)]], [[0, 1, 2]],
   [[(0, 0), (1, 0), (0, 1)]]⟩

/-- Two links in one mesh sharing points pool entry 0, with different
triangles and UV entries. -/
def modelShared : Model :=
  ⟨"model", [⟨"skin", "p"⟩],
   [⟨"mesh0", [⟨0, 0, 0, 0⟩, ⟨0, 0, 1, 1⟩]⟩], [⟨"idle", [0]⟩],
   [[(0, 0, 0), (1, 0, 0), (0, 1, 0)]],
   [[0, 1, 2], [2, 1, 0]],
   [[(0, 0), (1, 0), (0, 1)], [(1, 1), (0, 1), (1, 0)]]⟩

/-- A mesh with one bad link (points pool index 7 out of range) next to a
good one. -/
def modelBadLink : Model :=
  ⟨"model", [⟨"skin", "p"⟩],
   [⟨"mesh0", [⟨0, 7, 0, 0⟩, ⟨0, 0, 0, 0⟩]⟩], [⟨"idle", [0]⟩],
   [[(0, 0, 0), (1, 0, 0), (0, 1, 0)]], [[0, 1, 2]],
   [[(0, 0), (1, 0), (0, 1)]]⟩

/-! ## Basic lemmas -/

theorem flat3_length (vs : List Vec3) : (flat3 vs).length = 3 * vs.length := by
  induction vs with
  | nil => simp [flat3]
  | cons v vs ih => simp [flat3] at ih ⊢; omega

theorem flat2_length (vs : List Vec2) : (flat2 vs).length = 2 * vs.length := by
  induction vs with
  | nil => simp [flat2]
  | cons v vs ih => simp [flat2] at ih ⊢; omega

theorem padUV_length (n : Nat) (uv : List Vec2) : (padUV n uv).length = n := by
  simp [padUV]

theorem padUV_append_replicate (n k : Nat) (uv : List Vec2) :
    padUV n (uv ++ List.replicate k uvZero) = padUV n uv := by
  unfold padUV
  rw [List.append_assoc, ← List.replicate_add,
      List.take_append_eq_append_take, List.take_append_eq_append_take,
      List.take_replicate, List.take_replicate]
  have : min (n - uv.length) (k + n) = min (n - uv.length) n := by omega
  rw [this]

theorem padUV_of_lt (n : Nat) (uv : List Vec2) (h : uv.length < n) :
    uv ++ List.replicate (n - uv.length) uvZero = padUV n uv := by
  unfold padUV
  rw [List.take_append_eq_append_take, List.take_replicate,
      List.take_of_length_le (Nat.le_of_lt h)]
  have : min (n - uv.length) n = n - uv.length := by omega
  rw [this]

theorem padUV_of_ge (n : Nat) (uv : List Vec2) (h : n ≤ uv.length) :
    uv.take n = padUV n uv := by
  unfold padUV
  rw [List.take_append_eq_append_take, List.take_replicate]
  have : min (n - uv.length) n = 0 := by omega
  rw [this]
  simp

theorem padUV_of_eq (n : Nat) (uv : List Vec2) (h : uv.length = n) :
    uv = padUV n uv := by
  have := padUV_of_ge n uv (le_of_eq h.symm)
  rwa [List.take_of_length_le (le_of_eq h)] at this

theorem listMinQ_least (x : ℚ) (xs : List ℚ) :
    listMinQ (x :: xs) ∈ x :: xs ∧ ∀ y ∈ x :: xs, listMinQ (x :: xs) ≤ y := by
  induction xs generalizing x with
  | nil => simp [listMinQ]
  | cons y ys ih =>
    have hfold : listMinQ (x :: y :: ys) = listMinQ (min x y :: ys) := by
      simp [listMinQ]
    obtain ⟨hmem, hle⟩ := ih (min x y)
    rw [hfold]
    refine ⟨?_, ?_⟩
    · rcases List.mem_cons.mp hmem with h | h
      · rcases min_choice x y with hc | hc
        · rw [h, hc]; exact List.mem_cons_self _ _
        · rw [h, hc]; exact List.mem_cons_of_mem _ (List.mem_cons_self _ _)
      · exact List.mem_cons_of_mem _ (List.mem_cons_of_mem _ h)
    · intro z hz
      rcases List.mem_cons.mp hz with h | h
      · exact le_trans (hle _ (List.mem_cons_self _ _))
          (by rw [h]; exact min_le_left x y)
      · rcases List.mem_cons.mp h with h2 | h2
        · exact le_trans (hle _ (List.mem_cons_self _ _))
            (by rw [h2]; exact min_le_right x y)
        · exact hle z (List.mem_cons_of_mem _ h2)

theorem listMaxQ_greatest (x : ℚ) (xs : List ℚ) :
    listMaxQ (x :: xs) ∈ x :: xs ∧ ∀ y ∈ x :: xs, y ≤ listMaxQ (x :: xs) := by
  induction xs generalizing x with
  | nil => simp [listMaxQ]
  | cons y ys ih =>
    have hfold : listMaxQ (x :: y :: ys) = listMaxQ (max x y :: ys) := by
      simp [listMaxQ]
    obtain ⟨hmem, hle⟩ := ih (max x y)
    rw [hfold]
    refine ⟨?_, ?_⟩
    · rcases List.mem_cons.mp hmem with h | h
      · rcases max_choice x y with hc | hc
        · rw [h, hc]; exact List.mem_cons_self _ _
        · rw [h, hc]; exact List.mem_cons_of_mem _ (List.mem_cons_self _ _)
      · exact List.mem_cons_of_mem _ (List.mem_cons_of_mem _ h)
    · intro z hz
      rcases List.mem_cons.mp hz with h | h
      · exact le_trans (by rw [h]; exact le_max_left x y)
          (hle _ (List.mem_cons_self _ _))
      · rcases List.mem_cons.mp h with h2 | h2
        · exact le_trans (by rw [h2]; exact le_max_right x y)
            (hle _ (List.mem_cons_self _ _))
        · exact hle z (List.mem_cons_of_mem _ h2)

theorem PoolOk_refl (orig : List (List Vec2)) : PoolOk orig orig :=
  ⟨rfl, fun i e h => ⟨e, 0, h, by simp⟩⟩

theorem goodLink_elim (model : Model) (link : MeshLink)
    (h : goodLink model link = true) :
    ∃ ts ps u, model.triangle_data.get? link.triangles = some ts ∧
      model.points_data.get? link.points = some ps ∧
      model.texture_coordinates_data.get? link.texture_coordinates = some u ∧
      ps ≠ [] ∧ ts ≠ [] := by
  unfold goodLink at h
  split at h
  · next ts ps u h1 h2 h3 =>
      rw [Bool.and_eq_true, Bool.not_eq_true', Bool.not_eq_true'] at h
      refine ⟨ts, ps, u, h1, h2, h3, ?_, ?_⟩
      · intro hnil; rw [hnil] at h; simp at h
      · intro hnil; rw [hnil] at h; simp at h
  · exact absurd h (by simp)

theorem PoolOk_set (orig pool : List (List Vec2)) (i : Nat) (o : List Vec2)
    (k : Nat) (hok : PoolOk orig pool) (ho : orig.get? i = some o) :
    PoolOk orig (pool.set i (o ++ List.replicate k uvZero)) := by
  obtain ⟨hlen, hent⟩ := hok
  have hi : i < pool.length := by
    rw [hlen]
    by_contra hc
    rw [List.get?_eq_none.mpr (Nat.le_of_not_lt hc)] at ho
    exact Option.noConfusion ho
  refine ⟨by simpa using hlen, ?_⟩
  intro j e hj
  rw [List.get?_set_of_lt' _ _ hi] at hj
  by_cases hij : i = j
  · rw [if_pos hij] at hj
    subst hij
    exact ⟨o, k, ho, (Option.some.injEq _ _).mp hj.symm⟩
  · rw [if_neg hij] at hj
    exact hent j e hj

theorem reconcile_eq_padUV (N : Nat) (cur o : List Vec2) (k : Nat)
    (hck : cur = o ++ List.replicate k uvZero) :
    (if cur.length < N then
       cur ++ List.replicate (N - cur.length) uvZero
     else if cur.length > N then cur.take N else cur) = padUV N o := by
  rcases Nat.lt_trichotomy cur.length N with h | h | h
  · rw [if_pos h, padUV_of_lt _ _ h, hck, padUV_append_replicate]
  · rw [if_neg (by omega), if_neg (by omega), padUV_of_eq _ _ h, hck,
        padUV_append_replicate]
  · rw [if_neg (by omega), if_pos h, padUV_of_ge _ _ (Nat.le_of_lt h), hck,
        padUV_append_replicate]

theorem processLink_bad (model : Model) (an : String) (a f l : Nat)
    (link : MeshLink) (s : ExportState)
    (hlen : s.uvPool.length = model.texture_coordinates_data.length)
    (hbad : goodLink model link = false) :
    ∃ w, processLink model an a f l link s =
      ⟨s.uvPool, s.vertexStream, s.indexStream, s.accessors, s.gltfMeshes,
       s.nodes, s.warnings ++ [w]⟩ := by
  unfold processLink
  split
  · next ts ps cur hts hps hcur =>
    obtain ⟨u, hu⟩ :
        ∃ u, model.texture_coordinates_data.get? link.texture_coordinates =
          some u := by
      cases hq : model.texture_coordinates_data.get? link.texture_coordinates
        with
      | none =>
          rw [List.get?_eq_none, ← hlen, ← List.get?_eq_none] at hq
          rw [hq] at hcur
          exact Option.noConfusion hcur
      | some u => exact ⟨u, rfl⟩
    unfold goodLink at hbad
    rw [hts, hps, hu] at hbad
    simp only [Bool.and_eq_false_iff, Bool.not_eq_false'] at hbad
    by_cases hps0 : ps = []
    · rw [if_pos hps0]
      exact ⟨_, rfl⟩
    · rw [if_neg hps0]
      have hts0 : ts = [] := by
        rcases hbad with h | h
        · exact absurd (List.isEmpty_iff.mp h) hps0
        · exact List.isEmpty_iff.mp h
      rw [if_pos hts0]
      exact ⟨_, rfl⟩
  · next h => exact ⟨_, rfl⟩


theorem processLink_good (model : Model) (an : String) (a f l : Nat)
    (link : MeshLink) (s : ExportState)
    (hPool : PoolOk model.texture_coordinates_data s.uvPool)
    (hGood : goodLink model link = true) :
    ∃ pool1 w1, PoolOk model.texture_coordinates_data pool1 ∧
      (model.materials.length ≤ link.material →
        Warning.invalidMaterial a f l ∈ w1) ∧
      processLink model an a f l link s =
        ⟨pool1,
         s.vertexStream ++ linkVFloats model link,
         s.indexStream ++ trianglesOf model link,
         s.accessors ++ [posAccessorOf model link s.vertexStream.length,
                         uvAccessorOf model link s.vertexStream.length,
                         idxAccessorOf model link s.indexStream.length],
         s.gltfMeshes ++ [⟨[⟨s.accessors.length, s.accessors.length + 1,
                             s.accessors.length + 2, matIndexOf model link⟩]⟩],
         s.nodes ++ [⟨s.gltfMeshes.length,
                      nodeNameOf model ⟨a, f, l, an, link⟩⟩],
         s.warnings ++ w1⟩ := by
  obtain ⟨ts, ps, o, hts, hps, ho, hpsne, htsne⟩ := goodLink_elim model link hGood
  have hidx : link.texture_coordinates < s.uvPool.length := by
    rw [hPool.1]
    by_contra hc
    rw [List.get?_eq_none.mpr (Nat.le_of_not_lt hc)] at ho
    exact Option.noConfusion ho
  obtain ⟨cur, hcur⟩ :
      ∃ cur, s.uvPool.get? link.texture_coordinates = some cur := by
    cases hq : s.uvPool.get? link.texture_coordinates with
    | none => rw [List.get?_eq_none] at hq; omega
    | some c => exact ⟨c, rfl⟩
  obtain ⟨o1, k, ho1, hck1⟩ := hPool.2 _ _ hcur
  have hck : cur = o ++ List.replicate k uvZero := by
    have ho3 := ho
    rw [ho1] at ho3
    rw [hck1, Option.some.inj ho3]
  have hpts : pointsOf model link = ps := by
    unfold pointsOf; rw [hps]; rfl
  have htris : trianglesOf model link = ts := by
    unfold trianglesOf; rw [hts]; rfl
  have huo : uvOrigOf model link = o := by
    unfold uvOrigOf; rw [ho]; rfl
  by_cases hmat : model.materials.length ≤ link.material
  · rcases Nat.lt_trichotomy cur.length ps.length with hlt | heq2 | hgt
    · have hne : cur.length ≠ ps.length := Nat.ne_of_lt hlt
      have hre : cur ++ List.replicate (ps.length - cur.length) uvZero =
          padUV ps.length o := by
        rw [padUV_of_lt _ _ hlt, hck, padUV_append_replicate]
      refine ⟨s.uvPool.set link.texture_coordinates
          (cur ++ List.replicate (ps.length - cur.length) uvZero),
        [Warning.uvMismatch a f l, Warning.invalidMaterial a f l],
        ?_, ?_, ?_⟩
      · have harg : cur ++ List.replicate (ps.length - cur.length) uvZero =
            o ++ List.replicate (k + (ps.length - cur.length)) uvZero := by
          rw [hck, List.append_assoc, ← List.replicate_add]
        rw [harg]
        exact PoolOk_set _ _ _ _ _ hPool ho
      · intro _; simp
      · simp only [processLink, hts, hps, hcur]
        rw [if_neg hpsne, if_neg htsne]
        simp [hlt, hne, hmat, hre, hpts, htris, huo, linkVFloats, posFloats,
              uvFloats, uvEmitted, verticesOf, posAccessorOf, uvAccessorOf,
              idxAccessorOf, matIndexOf, matNameOf, nodeNameOf,
              List.length_append, List.append_assoc]
    · have hre : cur = padUV ps.length o := by
        rw [← padUV_append_replicate _ k, ← hck]
        exact padUV_of_eq _ _ heq2
      refine ⟨s.uvPool, [Warning.invalidMaterial a f l], hPool, ?_, ?_⟩
      · intro _; simp
      · simp only [processLink, hts, hps, hcur]
        rw [if_neg hpsne, if_neg htsne]
        simp [heq2, hmat, ← hre, hpts, htris, huo, linkVFloats, posFloats,
              uvFloats, uvEmitted, verticesOf, posAccessorOf, uvAccessorOf,
              idxAccessorOf, matIndexOf, matNameOf, nodeNameOf,
              List.length_append, List.append_assoc]
    · have hnlt : ¬cur.length < ps.length := by omega
      have hne : cur.length ≠ ps.length := by omega
      have hre : cur.take ps.length = padUV ps.length o := by
        rw [padUV_of_ge _ _ (Nat.le_of_lt hgt), hck, padUV_append_replicate]
      refine ⟨s.uvPool, [Warning.uvMismatch a f l,
          Warning.invalidMaterial a f l], hPool, ?_, ?_⟩
      · intro _; simp
      · simp only [processLink, hts, hps, hcur]
        rw [if_neg hpsne, if_neg htsne]
        simp [hnlt, hgt, hne, hmat, hre, hpts, htris, huo, linkVFloats,
              posFloats, uvFloats, uvEmitted, verticesOf, posAccessorOf,
              uvAccessorOf, idxAccessorOf, matIndexOf, matNameOf, nodeNameOf,
              List.length_append, List.append_assoc]
  · rcases Nat.lt_trichotomy cur.length ps.length with hlt | heq2 | hgt
    · have hne : cur.length ≠ ps.length := Nat.ne_of_lt hlt
      have hre : cur ++ List.replicate (ps.length - cur.length) uvZero =
          padUV ps.length o := by
        rw [padUV_of_lt _ _ hlt, hck, padUV_append_replicate]
      refine ⟨s.uvPool.set link.texture_coordinates
          (cur ++ List.replicate (ps.length - cur.length) uvZero),
        [Warning.uvMismatch a f l], ?_, ?_, ?_⟩
      · have harg : cur ++ List.replicate (ps.length - cur.length) uvZero =
            o ++ List.replicate (k + (ps.length - cur.length)) uvZero := by
          rw [hck, List.append_assoc, ← List.replicate_add]
        rw [harg]
        exact PoolOk_set _ _ _ _ _ hPool ho
      · intro h; exact absurd h hmat
      · simp only [processLink, hts, hps, hcur]
        rw [if_neg hpsne, if_neg htsne]
        simp [hlt, hne, hmat, hre, hpts, htris, huo, linkVFloats, posFloats,
              uvFloats, uvEmitted, verticesOf, posAccessorOf, uvAccessorOf,
              idxAccessorOf, matIndexOf, matNameOf, nodeNameOf,
              List.length_append, List.append_assoc]
    · have hre : cur = padUV ps.length o := by
        rw [← padUV_append_replicate _ k, ← hck]
        exact padUV_of_eq _ _ heq2
      refine ⟨s.uvPool, [], hPool, ?_, ?_⟩
      · intro h; exact absurd h hmat
      · simp only [processLink, hts, hps, hcur]
        rw [if_neg hpsne, if_neg htsne]
        simp [heq2, hmat, ← hre, hpts, htris, huo, linkVFloats, posFloats,
              uvFloats, uvEmitted, verticesOf, posAccessorOf, uvAccessorOf,
              idxAccessorOf, matIndexOf, matNameOf, nodeNameOf,
              List.length_append, List.append_assoc]
    · have hnlt : ¬cur.length < ps.length := by omega
      have hne : cur.length ≠ ps.length := by omega
      have hre : cur.take ps.length = padUV ps.length o := by
        rw [padUV_of_ge _ _ (Nat.le_of_lt hgt), hck, padUV_append_replicate]
      refine ⟨s.uvPool, [Warning.uvMismatch a f l], hPool, ?_, ?_⟩
      · intro h; exact absurd h hmat
      · simp only [processLink, hts, hps, hcur]
        rw [if_neg hpsne, if_neg htsne]
        simp [hnlt, hgt, hne, hmat, hre, hpts, htris, huo, linkVFloats,
              posFloats, uvFloats, uvEmitted, verticesOf, posAccessorOf,
              uvAccessorOf, idxAccessorOf, matIndexOf, matNameOf, nodeNameOf,
              List.length_append, List.append_assoc]

theorem accsFrom_length (model : Model) (es : List Emit) :
    ∀ v i, (accsFrom model es v i).length = 3 * es.length := by
  induction es with
  | nil => intro v i; simp [accsFrom]
  | cons e rest ih => intro v i; simp [accsFrom, ih]; omega

theorem gmFrom_length (model : Model) (es : List Emit) :
    ∀ n, (gmFrom model es n).length = es.length := by
  induction es with
  | nil => intro n; simp [gmFrom]
  | cons e rest ih => intro n; simp [gmFrom, ih]

theorem ndFrom_length (model : Model) (es : List Emit) :
    ∀ n, (ndFrom model es n).length = es.length := by
  induction es with
  | nil => intro n; simp [ndFrom]
  | cons e rest ih => intro n; simp [ndFrom, ih]

theorem accsFrom_append (model : Model) (es1 es2 : List Emit) :
    ∀ v i, accsFrom model (es1 ++ es2) v i =
      accsFrom model es1 v i ++
        accsFrom model es2 (v + vTot model es1) (i + iTot model es1) := by
  induction es1 with
  | nil => intro v i; simp [accsFrom, vTot, iTot]
  | cons e rest ih =>
      intro v i
      simp only [List.cons_append, accsFrom, List.append_eq]
      rw [ih]
      simp [vTot, iTot, Nat.add_assoc]

theorem gmFrom_append (model : Model) (es1 es2 : List Emit) :
    ∀ n, gmFrom model (es1 ++ es2) n =
      gmFrom model es1 n ++ gmFrom model es2 (n + 3 * es1.length) := by
  induction es1 with
  | nil => intro n; simp [gmFrom]
  | cons e rest ih =>
      intro n
      have h3 : n + 3 + 3 * rest.length = n + 3 * (rest.length + 1) := by ring
      simp only [List.cons_append, gmFrom, List.append_eq, ih,
        List.length_cons, h3]

theorem ndFrom_append (model : Model) (es1 es2 : List Emit) :
    ∀ n, ndFrom model (es1 ++ es2) n =
      ndFrom model es1 n ++ ndFrom model es2 (n + es1.length) := by
  induction es1 with
  | nil => intro n; simp [ndFrom]
  | cons e rest ih =>
      intro n
      have h1 : n + 1 + rest.length = n + (rest.length + 1) := by ring
      simp only [List.cons_append, ndFrom, List.append_eq, ih,
        List.length_cons, h1]

theorem vTot_flatten (model : Model) (es : List Emit) :
    ((es.map (fun e => linkVFloats model e.link)).flatten).length =
      vTot model es := by
  simp only [List.length_flatten, List.map_map]
  rfl

theorem iTot_flatten (model : Model) (es : List Emit) :
    ((es.map (fun e => trianglesOf model e.link)).flatten).length =
      iTot model es := by
  simp only [List.length_flatten, List.map_map]
  rfl

theorem processLinks_spec (model : Model) (an : String) (a f : Nat) :
    ∀ (links : List MeshLink) (li : Nat) (s : ExportState),
    PoolOk model.texture_coordinates_data s.uvPool →
    ∃ pool1 w1, PoolOk model.texture_coordinates_data pool1 ∧
      (∀ e ∈ linkEmits model an a f li links,
        model.materials.length ≤ e.link.material →
        Warning.invalidMaterial e.animIdx e.frameIdx e.linkIdx ∈ w1) ∧
      processLinks model an a f li links s =
        ⟨pool1,
         s.vertexStream ++
           ((linkEmits model an a f li links).map
             (fun e => linkVFloats model e.link)).flatten,
         s.indexStream ++
           ((linkEmits model an a f li links).map
             (fun e => trianglesOf model e.link)).flatten,
         s.accessors ++ accsFrom model (linkEmits model an a f li links)
           s.vertexStream.length s.indexStream.length,
         s.gltfMeshes ++ gmFrom model (linkEmits model an a f li links)
           s.accessors.length,
         s.nodes ++ ndFrom model (linkEmits model an a f li links)
           s.gltfMeshes.length,
         s.warnings ++ w1⟩ := by
  intro links
  induction links with
  | nil =>
      intro li s hP
      refine ⟨s.uvPool, [], hP, by simp [linkEmits], ?_⟩
      simp [linkEmits, processLinks, accsFrom, gmFrom, ndFrom]
  | cons link rest ih =>
      intro li s hP
      by_cases hg : goodLink model link = true
      · obtain ⟨pool1, w1, hP1, hw1, heq⟩ :=
          processLink_good model an a f li link s hP hg
        have hP1s : PoolOk model.texture_coordinates_data
            (processLink model an a f li link s).uvPool := by
          rw [heq]; exact hP1
        obtain ⟨pool2, w2, hP2, hw2, heq2⟩ :=
          ih (li + 1) (processLink model an a f li link s) hP1s
        refine ⟨pool2, w1 ++ w2, hP2, ?_, ?_⟩
        · intro e he hbm
          rw [linkEmits] at he
          rw [if_pos hg] at he
          rcases List.mem_cons.mp he with he0 | her
          · subst he0
            exact List.mem_append_left _ (hw1 hbm)
          · exact List.mem_append_right _ (hw2 e her hbm)
        · show processLinks model an a f (li + 1) rest
            (processLink model an a f li link s) = _
          rw [heq2, heq]
          rw [linkEmits, if_pos hg]
          simp [accsFrom, gmFrom, ndFrom, List.append_assoc,
            List.length_append]
      · have hg2 : goodLink model link = false := by
          cases h2 : goodLink model link with
          | true => exact absurd h2 hg
          | false => rfl
        obtain ⟨w, heq⟩ := processLink_bad model an a f li link s hP.1 hg2
        have hP1s : PoolOk model.texture_coordinates_data
            (processLink model an a f li link s).uvPool := by
          rw [heq]; exact hP
        obtain ⟨pool2, w2, hP2, hw2, heq2⟩ :=
          ih (li + 1) (processLink model an a f li link s) hP1s
        refine ⟨pool2, [w] ++ w2, hP2, ?_, ?_⟩
        · intro e he hbm
          rw [linkEmits] at he
          rw [if_neg (by simp [hg2])] at he
          exact List.mem_append_right _ (hw2 e he hbm)
        · show processLinks model an a f (li + 1) rest
            (processLink model an a f li link s) = _
          rw [heq2, heq]
          rw [linkEmits, if_neg (by simp [hg2])]
          simp [List.append_assoc]

theorem processFrames_spec (model : Model) (an : String) (a : Nat) :
    ∀ (frames : List Nat) (fi : Nat) (s : ExportState),
    PoolOk model.texture_coordinates_data s.uvPool →
    ∃ pool1 w1, PoolOk model.texture_coordinates_data pool1 ∧
      (∀ e ∈ frameEmits model an a fi frames,
        model.materials.length ≤ e.link.material →
        Warning.invalidMaterial e.animIdx e.frameIdx e.linkIdx ∈ w1) ∧
      processFrames model an a fi frames s =
        ⟨pool1,
         s.vertexStream ++
           ((frameEmits model an a fi frames).map
             (fun e => linkVFloats model e.link)).flatten,
         s.indexStream ++
           ((frameEmits model an a fi frames).map
             (fun e => trianglesOf model e.link)).flatten,
         s.accessors ++ accsFrom model (frameEmits model an a fi frames)
           s.vertexStream.length s.indexStream.length,
         s.gltfMeshes ++ gmFrom model (frameEmits model an a fi frames)
           s.accessors.length,
         s.nodes ++ ndFrom model (frameEmits model an a fi frames)
           s.gltfMeshes.length,
         s.warnings ++ w1⟩ := by
  intro frames
  induction frames with
  | nil =>
      intro fi s hP
      refine ⟨s.uvPool, [], hP, by simp [frameEmits], ?_⟩
      simp [frameEmits, processFrames, accsFrom, gmFrom, ndFrom]
  | cons mi rest ih =>
      intro fi s hP
      cases hmi : model.meshes.get? mi with
      | none =>
          obtain ⟨pool2, w2, hP2, hw2, heq2⟩ := ih (fi + 1)
            (addWarning s (.meshIndexOutOfRange a fi)) hP
          refine ⟨pool2, [Warning.meshIndexOutOfRange a fi] ++ w2, hP2, ?_, ?_⟩
          · intro e he hbm
            rw [frameEmits, hmi] at he
            rw [List.nil_append] at he
            exact List.mem_append_right _ (hw2 e he hbm)
          · show processFrames model an a (fi + 1) rest
              (match model.meshes.get? mi with
               | none => addWarning s (.meshIndexOutOfRange a fi)
               | some mesh => processLinks model an a fi 0 mesh.links s) = _
            rw [hmi]
            rw [heq2]
            rw [frameEmits, hmi]
            simp [addWarning, List.append_assoc]
      | some mesh =>
          obtain ⟨pool1, w1, hP1, hw1, heq⟩ :=
            processLinks_spec model an a fi mesh.links 0 s hP
          have hP1s : PoolOk model.texture_coordinates_data
              (processLinks model an a fi 0 mesh.links s).uvPool := by
            rw [heq]; exact hP1
          obtain ⟨pool2, w2, hP2, hw2, heq2⟩ := ih (fi + 1)
            (processLinks model an a fi 0 mesh.links s) hP1s
          refine ⟨pool2, w1 ++ w2, hP2, ?_, ?_⟩
          · intro e he hbm
            rw [frameEmits, hmi] at he
            rcases List.mem_append.mp he with h1 | h2
            · exact List.mem_append_left _ (hw1 e h1 hbm)
            · exact List.mem_append_right _ (hw2 e h2 hbm)
          · show processFrames model an a (fi + 1) rest
              (match model.meshes.get? mi with
               | none => addWarning s (.meshIndexOutOfRange a fi)
               | some mesh => processLinks model an a fi 0 mesh.links s) = _
            rw [hmi]
            rw [heq2, heq]
            rw [frameEmits, hmi]
            simp only [List.map_append, List.flatten_append, List.append_assoc,
              List.length_append, accsFrom_append, gmFrom_append, ndFrom_append,
              vTot_flatten, iTot_flatten, accsFrom_length, gmFrom_length,
              ndFrom_length]

theorem processAnims_spec (model : Model) :
    ∀ (anims : List DbAnimation) (ai : Nat) (s : ExportState),
    PoolOk model.texture_coordinates_data s.uvPool →
    ∃ pool1 w1, PoolOk model.texture_coordinates_data pool1 ∧
      (∀ e ∈ animEmits model ai anims,
        model.materials.length ≤ e.link.material →
        Warning.invalidMaterial e.animIdx e.frameIdx e.linkIdx ∈ w1) ∧
      processAnims model ai anims s =
        ⟨pool1,
         s.vertexStream ++
           ((animEmits model ai anims).map
             (fun e => linkVFloats model e.link)).flatten,
         s.indexStream ++
           ((animEmits model ai anims).map
             (fun e => trianglesOf model e.link)).flatten,
         s.accessors ++ accsFrom model (animEmits model ai anims)
           s.vertexStream.length s.indexStream.length,
         s.gltfMeshes ++ gmFrom model (animEmits model ai anims)
           s.accessors.length,
         s.nodes ++ ndFrom model (animEmits model ai anims)
           s.gltfMeshes.length,
         s.warnings ++ w1⟩ := by
  intro anims
  induction anims with
  | nil =>
      intro ai s hP
      refine ⟨s.uvPool, [], hP, by simp [animEmits], ?_⟩
      simp [animEmits, processAnims, accsFrom, gmFrom, ndFrom]
  | cons anim rest ih =>
      intro ai s hP
      obtain ⟨pool1, w1, hP1, hw1, heq⟩ :=
        processFrames_spec model anim.name ai anim.meshes 0 s hP
      have hP1s : PoolOk model.texture_coordinates_data
          (processFrames model anim.name ai 0 anim.meshes s).uvPool := by
        rw [heq]; exact hP1
      obtain ⟨pool2, w2, hP2, hw2, heq2⟩ := ih (ai + 1)
        (processFrames model anim.name ai 0 anim.meshes s) hP1s
      refine ⟨pool2, w1 ++ w2, hP2, ?_, ?_⟩
      · intro e he hbm
        rw [animEmits] at he
        rcases List.mem_append.mp he with h1 | h2
        · exact List.mem_append_left _ (hw1 e h1 hbm)
        · exact List.mem_append_right _ (hw2 e h2 hbm)
      · show processAnims model (ai + 1) rest
          (processFrames model anim.name ai 0 anim.meshes s) = _
        rw [heq2, heq]
        rw [animEmits]
        simp only [List.map_append, List.flatten_append, List.append_assoc,
          List.length_append, accsFrom_append, gmFrom_append, ndFrom_append,
          vTot_flatten, iTot_flatten, accsFrom_length, gmFrom_length,
          ndFrom_length]

/-- The central characterization: `export_to_gltf` produces exactly the
purely-described streams, accessors, meshes and nodes of the emitted links,
the final UV pool is a `(0,0)`-padded version of the original one, and every
emitted link with an out-of-range material has an `invalidMaterial` warning
recorded. -/
theorem export_to_gltf_spec (model : Model) :
    ∃ pool1 w1, PoolOk model.texture_coordinates_data pool1 ∧
      (∀ e ∈ emittedLinks model,
        model.materials.length ≤ e.link.material →
        Warning.invalidMaterial e.animIdx e.frameIdx e.linkIdx ∈ w1) ∧
      export_to_gltf model =
        ⟨pool1, vertexStreamOf model, indexStreamOf model,
         accsFrom model (emittedLinks model) 0 0,
         gmFrom model (emittedLinks model) 0,
         ndFrom model (emittedLinks model) 0, w1⟩ := by
  obtain ⟨pool1, w1, hP1, hw1, heq⟩ := processAnims_spec model
    model.animations 0
    ⟨model.texture_coordinates_data, [], [], [], [], [], []⟩
    (PoolOk_refl _)
  refine ⟨pool1, w1, hP1, hw1, ?_⟩
  rw [export_to_gltf, heq]
  simp [emittedLinks, vertexStreamOf, indexStreamOf]

theorem linkEmits_mem (model : Model) (an : String) (a f : Nat) :
    ∀ (links : List MeshLink) (li : Nat) (e : Emit),
    e ∈ linkEmits model an a f li links ↔
      (e.animIdx = a ∧ e.frameIdx = f ∧ e.animName = an ∧
        goodLink model e.link = true ∧
        ∃ j, links.get? j = some e.link ∧ e.linkIdx = li + j) := by
  intro links
  induction links with
  | nil => intro li e; simp [linkEmits]
  | cons link rest ih =>
      intro li e
      rw [linkEmits]
      by_cases hg : goodLink model link = true
      · rw [if_pos hg]
        constructor
        · intro he
          rcases List.mem_cons.mp he with he0 | her
          · subst he0
            exact ⟨rfl, rfl, rfl, hg, 0, by simp, by simp⟩
          · obtain ⟨h1, h2, h3, h4, j, hj, hl⟩ := (ih (li + 1) e).mp her
            refine ⟨h1, h2, h3, h4, j + 1, by simpa using hj, by omega⟩
        · rintro ⟨h1, h2, h3, h4, j, hj, hl⟩
          cases j with
          | zero =>
              have hlk : link = e.link := by simpa using hj
              obtain ⟨ea, ef, el, en, elk⟩ := e
              simp only at h1 h2 h3 hlk hl
              subst h1; subst h2; subst h3
              rw [← hlk]
              have : el = li := by omega
              subst this
              exact List.mem_cons_self _ _
          | succ j2 =>
              refine List.mem_cons_of_mem _ ((ih (li + 1) e).mpr
                ⟨h1, h2, h3, h4, j2, by simpa using hj, by omega⟩)
      · rw [if_neg hg]
        rw [ih (li + 1) e]
        constructor
        · rintro ⟨h1, h2, h3, h4, j, hj, hl⟩
          exact ⟨h1, h2, h3, h4, j + 1, by simpa using hj, by omega⟩
        · rintro ⟨h1, h2, h3, h4, j, hj, hl⟩
          cases j with
          | zero =>
              have hlk : link = e.link := by simpa using hj
              rw [← hlk] at h4
              exact absurd h4 hg
          | succ j2 =>
              exact ⟨h1, h2, h3, h4, j2, by simpa using hj, by omega⟩

theorem frameEmits_mem (model : Model) (an : String) (a : Nat) :
    ∀ (frames : List Nat) (fi : Nat) (e : Emit),
    e ∈ frameEmits model an a fi frames ↔
      (e.animIdx = a ∧ e.animName = an ∧ goodLink model e.link = true ∧
        ∃ j mi mesh, frames.get? j = some mi ∧ e.frameIdx = fi + j ∧
          model.meshes.get? mi = some mesh ∧
          mesh.links.get? e.linkIdx = some e.link) := by
  intro frames
  induction frames with
  | nil => intro fi e; simp [frameEmits]
  | cons mi0 rest ih =>
      intro fi e
      rw [frameEmits]
      rw [List.mem_append, ih (fi + 1) e]
      cases hmi : model.meshes.get? mi0 with
      | none =>
          simp only [List.not_mem_nil, false_or]
          constructor
          · rintro ⟨h1, h2, h3, j, mi, mesh, hj, hf, hm, hl⟩
            exact ⟨h1, h2, h3, j + 1, mi, mesh, by simpa using hj, by omega,
              hm, hl⟩
          · rintro ⟨h1, h2, h3, j, mi, mesh, hj, hf, hm, hl⟩
            cases j with
            | zero =>
                have : mi0 = mi := by simpa using hj
                rw [← this] at hm
                rw [hmi] at hm
                exact Option.noConfusion hm
            | succ j2 =>
                exact ⟨h1, h2, h3, j2, mi, mesh, by simpa using hj, by omega,
                  hm, hl⟩
      | some mesh0 =>
          rw [linkEmits_mem model an a fi mesh0.links 0 e]
          constructor
          · rintro (⟨h1, h2, h3, h4, j, hj, hl⟩ | ⟨h1, h2, h3, j, mi, mesh, hj, hf, hm, hl⟩)
            · refine ⟨h1, h3, h4, 0, mi0, mesh0, by simp, by omega, hmi, ?_⟩
              have hj2 : j = e.linkIdx := by omega
              rw [hj2] at hj
              simpa using hj
            · exact ⟨h1, h2, h3, j + 1, mi, mesh, by simpa using hj, by omega,
                hm, hl⟩
          · rintro ⟨h1, h2, h3, j, mi, mesh, hj, hf, hm, hl⟩
            cases j with
            | zero =>
                left
                have hmi0 : mi0 = mi := by simpa using hj
                rw [← hmi0] at hm
                rw [hmi] at hm
                have hmesh : mesh0 = mesh := Option.some.inj hm
                refine ⟨h1, by omega, h2, h3, e.linkIdx, ?_, by omega⟩
                rw [hmesh]
                exact hl
            | succ j2 =>
                right
                exact ⟨h1, h2, h3, j2, mi, mesh, by simpa using hj, by omega,
                  hm, hl⟩

theorem animEmits_mem (model : Model) :
    ∀ (anims : List DbAnimation) (ai : Nat) (e : Emit),
    e ∈ animEmits model ai anims ↔
      (goodLink model e.link = true ∧
        ∃ j anim, anims.get? j = some anim ∧ e.animIdx = ai + j ∧
          e.animName = anim.name ∧
          ∃ mi mesh, anim.meshes.get? e.frameIdx = some mi ∧
            model.meshes.get? mi = some mesh ∧
            mesh.links.get? e.linkIdx = some e.link) := by
  intro anims
  induction anims with
  | nil => intro ai e; simp [animEmits]
  | cons anim0 rest ih =>
      intro ai e
      rw [animEmits]
      rw [List.mem_append, ih (ai + 1) e,
        frameEmits_mem model anim0.name ai anim0.meshes 0 e]
      constructor
      · rintro (⟨h1, h2, h3, j, mi, mesh, hj, hf, hm, hl⟩ |
                ⟨h3, j, anim, hj, ha, hn, mi, mesh, hmi, hm, hl⟩)
        · refine ⟨h3, 0, anim0, by simp, by omega, h2, mi, mesh, ?_, hm, hl⟩
          have hj2 : j = e.frameIdx := by omega
          rw [hj2] at hj
          exact hj
        · exact ⟨h3, j + 1, anim, by simpa using hj, by omega, hn, mi, mesh,
            hmi, hm, hl⟩
      · rintro ⟨h3, j, anim, hj, ha, hn, mi, mesh, hmi, hm, hl⟩
        cases j with
        | zero =>
            left
            have h0 : anim0 = anim := by simpa using hj
            subst h0
            exact ⟨by omega, hn, h3, e.frameIdx, mi, mesh, hmi, by omega, hm,
              hl⟩
        | succ j2 =>
            right
            exact ⟨h3, j2, anim, by simpa using hj, by omega, hn, mi, mesh,
              hmi, hm, hl⟩

/-- Position/goodness characterization of the emitted links: an emission is
exactly a traversal position holding a link that `goodLink` accepts. -/
theorem emittedLinks_mem (model : Model) (e : Emit) :
    e ∈ emittedLinks model ↔
      (goodLink model e.link = true ∧
        ∃ anim, model.animations.get? e.animIdx = some anim ∧
          e.animName = anim.name ∧
          ∃ mi mesh, anim.meshes.get? e.frameIdx = some mi ∧
            model.meshes.get? mi = some mesh ∧
            mesh.links.get? e.linkIdx = some e.link) := by
  rw [emittedLinks, animEmits_mem model model.animations 0 e]
  constructor
  · rintro ⟨h3, j, anim, hj, ha, rest⟩
    refine ⟨h3, anim, ?_, rest⟩
    have : j = e.animIdx := by omega
    rw [this] at hj
    exact hj
  · rintro ⟨h3, anim, hj, rest⟩
    exact ⟨h3, e.animIdx, anim, hj, by omega, rest⟩

theorem export_nodes_eq (model : Model) :
    (export_to_gltf model).nodes = ndFrom model (emittedLinks model) 0 := by
  obtain ⟨p, w, _, _, heq⟩ := export_to_gltf_spec model
  rw [heq]

theorem export_vertexStream_eq (model : Model) :
    (export_to_gltf model).vertexStream = vertexStreamOf model := by
  obtain ⟨p, w, _, _, heq⟩ := export_to_gltf_spec model
  rw [heq]

theorem export_indexStream_eq (model : Model) :
    (export_to_gltf model).indexStream = indexStreamOf model := by
  obtain ⟨p, w, _, _, heq⟩ := export_to_gltf_spec model
  rw [heq]

theorem export_accessors_eq (model : Model) :
    (export_to_gltf model).accessors =
      accsFrom model (emittedLinks model) 0 0 := by
  obtain ⟨p, w, _, _, heq⟩ := export_to_gltf_spec model
  rw [heq]

theorem export_gltfMeshes_eq (model : Model) :
    (export_to_gltf model).gltfMeshes = gmFrom model (emittedLinks model) 0 := by
  obtain ⟨p, w, _, _, heq⟩ := export_to_gltf_spec model
  rw [heq]

theorem export_invalidMaterial_warning (model : Model) (e : Emit)
    (he : e ∈ emittedLinks model)
    (hbm : model.materials.length ≤ e.link.material) :
    Warning.invalidMaterial e.animIdx e.frameIdx e.linkIdx ∈
      (export_to_gltf model).warnings := by
  obtain ⟨p, w, _, hw, heq⟩ := export_to_gltf_spec model
  rw [heq]
  exact hw e he hbm

theorem ndFrom_map_name (model : Model) :
    ∀ (es : List Emit) (n : Nat),
    (ndFrom model es n).map GNode.name = es.map (nodeNameOf model) := by
  intro es
  induction es with
  | nil => intro n; simp [ndFrom]
  | cons e rest ih => intro n; simp [ndFrom, ih]

theorem ndFrom_get (model : Model) :
    ∀ (es : List Emit) (n k : Nat) (e : Emit), es.get? k = some e →
      (ndFrom model es n).get? k = some ⟨n + k, nodeNameOf model e⟩ := by
  intro es
  induction es with
  | nil => intro n k e h; simp at h
  | cons e0 rest ih =>
      intro n k e h
      cases k with
      | zero =>
          have h0 : e0 = e := by simpa using h
          subst h0
          simp [ndFrom]
      | succ k2 =>
          have h2 : rest.get? k2 = some e := by simpa using h
          show (ndFrom model rest (n + 1)).get? k2 = _
          rw [ih (n + 1) k2 e h2]
          have : n + 1 + k2 = n + (k2 + 1) := by omega
          rw [this]

theorem gmFrom_get (model : Model) :
    ∀ (es : List Emit) (n k : Nat) (e : Emit), es.get? k = some e →
      (gmFrom model es n).get? k =
        some ⟨[⟨n + 3 * k, n + 3 * k + 1, n + 3 * k + 2,
               matIndexOf model e.link⟩]⟩ := by
  intro es
  induction es with
  | nil => intro n k e h; simp at h
  | cons e0 rest ih =>
      intro n k e h
      cases k with
      | zero =>
          have h0 : e0 = e := by simpa using h
          subst h0
          simp [gmFrom]
      | succ k2 =>
          have h2 : rest.get? k2 = some e := by simpa using h
          show (gmFrom model rest (n + 3)).get? k2 = _
          rw [ih (n + 3) k2 e h2]
          have e1 : n + 3 + 3 * k2 = n + 3 * (k2 + 1) := by ring
          rw [e1]

theorem gmFrom_mem (model : Model) :
    ∀ (es : List Emit) (n : Nat) (gm : GltfMesh), gm ∈ gmFrom model es n →
      ∃ e ∈ es, ∃ m, gm = ⟨[⟨m, m + 1, m + 2, matIndexOf model e.link⟩]⟩ := by
  intro es
  induction es with
  | nil => intro n gm h; simp [gmFrom] at h
  | cons e0 rest ih =>
      intro n gm h
      rw [gmFrom] at h
      rcases List.mem_cons.mp h with h0 | hr
      · exact ⟨e0, List.mem_cons_self _ _, n, h0⟩
      · obtain ⟨e, he, m, hm⟩ := ih (n + 3) gm hr
        exact ⟨e, List.mem_cons_of_mem _ he, m, hm⟩

theorem accsFrom_get (model : Model) :
    ∀ (es : List Emit) (v i k : Nat) (e : Emit), es.get? k = some e →
      (accsFrom model es v i).get? (3 * k) =
        some (posAccessorOf model e.link (v + vTot model (es.take k))) ∧
      (accsFrom model es v i).get? (3 * k + 1) =
        some (uvAccessorOf model e.link (v + vTot model (es.take k))) ∧
      (accsFrom model es v i).get? (3 * k + 2) =
        some (idxAccessorOf model e.link (i + iTot model (es.take k))) := by
  intro es
  induction es with
  | nil => intro v i k e h; simp at h
  | cons e0 rest ih =>
      intro v i k e h
      cases k with
      | zero =>
          have h0 : e0 = e := by simpa using h
          subst h0
          simp [accsFrom, vTot, iTot]
      | succ k2 =>
          have h2 : rest.get? k2 = some e := by simpa using h
          obtain ⟨g1, g2, g3⟩ := ih (v + (linkVFloats model e0.link).length)
            (i + (trianglesOf model e0.link).length) k2 e h2
          have hv : vTot model ((e0 :: rest).take (k2 + 1)) =
              (linkVFloats model e0.link).length + vTot model (rest.take k2) := by
            simp [vTot]
          have hi2 : iTot model ((e0 :: rest).take (k2 + 1)) =
              (trianglesOf model e0.link).length + iTot model (rest.take k2) := by
            simp [iTot]
          have e1 : 3 * (k2 + 1) = 3 * k2 + 1 + 1 + 1 := by ring
          have e2 : 3 * (k2 + 1) + 1 = 3 * k2 + 1 + 1 + 1 + 1 := by ring
          have e3 : 3 * (k2 + 1) + 2 = 3 * k2 + 2 + 1 + 1 + 1 := by ring
          refine ⟨?_, ?_, ?_⟩
          · rw [e1]
            simp only [accsFrom, List.get?_cons_succ]
            rw [g1, hv, ← Nat.add_assoc]
          · rw [e2]
            simp only [accsFrom, List.get?_cons_succ]
            rw [g2, hv, ← Nat.add_assoc]
          · rw [e3]
            simp only [accsFrom, List.get?_cons_succ]
            rw [g3, hi2, ← Nat.add_assoc]

theorem flatten_drop_emit (model : Model) :
    ∀ (es : List Emit) (k : Nat) (e : Emit), es.get? k = some e →
      ((es.map (fun x => linkVFloats model x.link)).flatten).drop
          (vTot model (es.take k)) =
        linkVFloats model e.link ++
          ((es.drop (k + 1)).map (fun x => linkVFloats model x.link)).flatten := by
  intro es
  induction es with
  | nil => intro k e h; simp at h
  | cons e0 rest ih =>
      intro k e h
      cases k with
      | zero =>
          have h0 : e0 = e := by simpa using h
          subst h0
          simp [vTot]
      | succ k2 =>
          have h2 : rest.get? k2 = some e := by simpa using h
          have hv : vTot model ((e0 :: rest).take (k2 + 1)) =
              (linkVFloats model e0.link).length + vTot model (rest.take k2) := by
            simp [vTot]
          rw [hv]
          simp only [List.map_cons, List.flatten_cons, List.drop_succ_cons]
          rw [← List.drop_drop, List.drop_left]
          exact ih k2 e h2

theorem posSlice_emit (model : Model) (es : List Emit) (k : Nat) (e : Emit)
    (h : es.get? k = some e) :
    (((es.map (fun x => linkVFloats model x.link)).flatten).drop
        (vTot model (es.take k))).take (posFloats model e.link).length =
      posFloats model e.link := by
  rw [flatten_drop_emit model es k e h]
  rw [linkVFloats, List.append_assoc, List.take_left]

theorem uvSlice_emit (model : Model) (es : List Emit) (k : Nat) (e : Emit)
    (h : es.get? k = some e) :
    (((es.map (fun x => linkVFloats model x.link)).flatten).drop
        (vTot model (es.take k) + (posFloats model e.link).length)).take
        (uvFloats model e.link).length =
      uvFloats model e.link := by
  rw [← List.drop_drop, flatten_drop_emit model es k e h]
  rw [linkVFloats, List.append_assoc, List.drop_left]
  rw [List.take_left]

theorem countP_range_get {α : Type} (p : α → Bool) :
    ∀ l : List α,
    ((List.range l.length).filter
      (fun i => ((l.get? i).map p).getD false)).length =
      (l.filter p).length := by
  intro l
  induction l with
  | nil => simp
  | cons x xs ih =>
      rw [List.length_cons, List.range_succ_eq_map, List.filter_cons,
        List.filter_cons]
      have key : (List.filter
          (fun i => (Option.map p ((x :: xs).get? i)).getD false)
          (List.map Nat.succ (List.range xs.length))).length =
          (List.filter (fun i => (Option.map p (xs.get? i)).getD false)
            (List.range xs.length)).length := by
        rw [← List.countP_eq_length_filter, ← List.countP_eq_length_filter,
          List.countP_map]
        rfl
      by_cases hx : p x
      · rw [if_pos (show ((Option.map p ((x :: xs).get? 0)).getD false) = true
            by simpa using hx), if_pos hx]
        simp only [List.length_cons]
        rw [key, ih]
      · rw [if_neg (show ¬((Option.map p ((x :: xs).get? 0)).getD false) = true
            by simpa using hx), if_neg hx]
        rw [key, ih]

theorem frame_any_iff (model : Model) (a : Nat) (anim : DbAnimation)
    (ha : model.animations.get? a = some anim) (fi : Nat) :
    ((emittedLinks model).any
        (fun e => e.animIdx == a && e.frameIdx == fi)) =
      ((anim.meshes.get? fi).map (frameGood model)).getD false := by
  rw [Bool.eq_iff_iff]
  rw [List.any_eq_true]
  constructor
  · rintro ⟨e, he, hb⟩
    rw [Bool.and_eq_true, beq_iff_eq, beq_iff_eq] at hb
    obtain ⟨hg, anim2, ha2, hn, mi, mesh, hmi, hm, hl⟩ :=
      (emittedLinks_mem model e).mp he
    rw [hb.1, ha] at ha2
    have : anim2 = anim := (Option.some.inj ha2).symm
    subst this
    rw [hb.2] at hmi
    rw [hmi]
    simp only [Option.map_some', Option.getD_some]
    rw [frameGood, hm]
    rw [List.any_eq_true]
    exact ⟨e.link, List.get?_mem hl, hg⟩
  · intro hr
    cases hf : anim.meshes.get? fi with
    | none => rw [hf] at hr; simp at hr
    | some mi =>
        rw [hf] at hr
        simp only [Option.map_some', Option.getD_some] at hr
        rw [frameGood] at hr
        cases hm : model.meshes.get? mi with
        | none => rw [hm] at hr; simp at hr
        | some mesh =>
            rw [hm] at hr
            rw [List.any_eq_true] at hr
            obtain ⟨link, hlm, hg⟩ := hr
            obtain ⟨j, hj⟩ := List.get?_of_mem hlm
            refine ⟨⟨a, fi, j, anim.name, link⟩, ?_, by simp⟩
            rw [emittedLinks_mem]
            exact ⟨hg, anim, ha, rfl, mi, mesh, hf, hm, hj⟩

theorem emitted_points_ne_nil (model : Model) (e : Emit)
    (he : e ∈ emittedLinks model) : pointsOf model e.link ≠ [] := by
  obtain ⟨hg, _⟩ := (emittedLinks_mem model e).mp he
  obtain ⟨ts, ps, u, hts, hps, hu, hpsne, htsne⟩ :=
    goodLink_elim model e.link hg
  unfold pointsOf
  rw [hps]
  simpa using hpsne

theorem listMinQ_least_map (f : Vec3 → ℚ) (vs : List Vec3) (h : vs ≠ []) :
    isLeastOf (listMinQ (vs.map f)) (vs.map f) := by
  cases vs with
  | nil => exact absurd rfl h
  | cons v rest =>
      rw [List.map_cons, isLeastOf]
      exact listMinQ_least (f v) (rest.map f)

theorem listMaxQ_greatest_map (f : Vec3 → ℚ) (vs : List Vec3) (h : vs ≠ []) :
    isGreatestOf (listMaxQ (vs.map f)) (vs.map f) := by
  cases vs with
  | nil => exact absurd rfl h
  | cons v rest =>
      rw [List.map_cons, isGreatestOf]
      exact listMaxQ_greatest (f v) (rest.map f)

theorem verticesOf_points_eq (model : Model) (l1 l2 : MeshLink)
    (hp : l1.points = l2.points) :
    verticesOf model l1 = verticesOf model l2 := by
  unfold verticesOf pointsOf
  rw [hp]

theorem matIndexOf_lt (model : Model) (link : MeshLink)
    (hpos : 0 < model.materials.length) :
    matIndexOf model link < model.materials.length := by
  unfold matIndexOf
  split
  · exact hpos
  · omega

/-! ## Claims -/

/-- C1 (code bug): the pool-immutability invariant of the spec is violated by the
code.  Serializing `modelShortUV` (one link with 3 points whose UV pool entry
has 1 entry) mutates `model.texture_coordinates_data[0]` in place: line 651
calls `list.extend` on the resolved pool entry itself, so after serialization
the UV pool entry has grown to 3 entries with `(0,0)` padding.  The points
and triangles pools are read-only throughout (the embedding resolves them
from the immutable model), but the UV pool is not. -/
theorem spec_C1_pool_mutated :
    (export_to_gltf modelShortUV).uvPool ≠
      modelShortUV.texture_coordinates_data ∧
    (export_to_gltf modelShortUV).uvPool =
      [[(1/4, 1/4), (0, 0), (0, 0)]] ∧
    modelShortUV.texture_coordinates_data = [[(1/4, 1/4)]] := by
  refine ⟨?_, ?_, ?_⟩
  · with_unfolding_all decide
  · with_unfolding_all rfl
  · rfl

/-- C2 counterexample: three animations walk/run/walk.  The generated node
names use the *global* animation index (`walk_00`, `run_01`, `walk_02`), not
an occurrence counter scoped to the name, and the frame number is zero-padded
to width 2 (`frame00`), not width 3; the name `walk_01_frame000_skin` that
the claim mandates for the second "walk" is never produced. -/
theorem spec_C2_counterexample :
    (export_to_gltf modelDupNames).nodes.map GNode.name =
      ["walk_00_frame00_skin", "run_01_frame00_skin",
       "walk_02_frame00_skin"] ∧
    "walk_01_frame000_skin" ∉
      (export_to_gltf modelDupNames).nodes.map GNode.name := by
  constructor
  · with_unfolding_all rfl
  · with_unfolding_all decide

/-- C2 amended: every node name is the scrubbed
`f"{anim_name}_{anim_idx:02d}_frame{frame_idx:02d}_{material_name}"` where
`anim_idx` is the global index of the animation in `model.animations` (the
occurrence counter `anim_name_indexer` of lines 616-619 is computed but never
used in the name) and the frame index is zero-padded to width 2. -/
theorem spec_C2_name_format (model : Model) :
    (export_to_gltf model).nodes.map GNode.name =
      (emittedLinks model).map (fun e =>
        cleanName (e.animName ++ "_" ++ pad2 e.animIdx ++ "_frame" ++
          pad2 e.frameIdx ++ "_" ++ matNameOf model e.link)) := by
  rw [export_nodes_eq, ndFrom_map_name]
  rfl

/-- C3 counterexample: on the concrete scenario of the spec the produced node
is named `idle_00_frame00_skin` (two-digit frame), not
`idle_00_frame000_skin`, and the max of the position accessor is `(50, 50, -50)`,
not the `(50, -50, 50)` stated by the claim. -/
theorem spec_C3_counterexample :
    (export_to_gltf modelConcrete).nodes.map GNode.name =
      ["idle_00_frame00_skin"] ∧
    "idle_00_frame00_skin" ≠ "idle_00_frame000_skin" ∧
    ((export_to_gltf modelConcrete).accessors.get? 0).map Accessor.max =
      some (some [50, 50, -50]) ∧
    (some [50, 50, -50] : Option (List ℚ)) ≠ some [50, -50, 50] := by
  refine ⟨?_, ?_, ?_, ?_⟩
  · with_unfolding_all rfl
  · with_unfolding_all decide
  · with_unfolding_all rfl
  · with_unfolding_all decide

/-- C3 amended: the concrete scenario serializes to exactly one node named
`idle_00_frame00_skin` whose position accessor has count 3 and bounds
`min = (-50, -50, -50)`, `max = (50, 50, -50)` under the `(p-0.5)*100`
transform (the transformed points are `(-50,-50,-50)`, `(50,-50,-50)`,
`(-50,50,-50)`). -/
theorem spec_C3_concrete :
    (export_to_gltf modelConcrete).nodes = [⟨0, "idle_00_frame00_skin"⟩] ∧
    (export_to_gltf modelConcrete).accessors.get? 0 =
      some ⟨0, 0, FLOAT_T, 3, "VEC3", some [-50, -50, -50],
            some [50, 50, -50]⟩ := by
  constructor
  · with_unfolding_all rfl
  · with_unfolding_all rfl

/-- C4: for every emitted link the UV accessor has exactly as many entries
as the link has vertices; its data is the original UV pool entry truncated
to, or padded with `(0,0)` (= `uvZero`) up to, the point count
(`padUV n uv = (uv ++ replicate n uvZero).take n`).  Mismatched links are
not rejected: `goodLink` never consults the length of the UV entry. -/
theorem spec_C4_uv_reconciliation (model : Model) (k : Nat) (e : Emit)
    (h : (emittedLinks model).get? k = some e) :
    ∃ acc voff,
      (export_to_gltf model).accessors.get? (3 * k + 1) = some acc ∧
      acc.byteOffset = 4 * voff ∧
      acc.count = (pointsOf model e.link).length ∧
      ((export_to_gltf model).vertexStream.drop voff).take (2 * acc.count) =
        flat2 (padUV (pointsOf model e.link).length
          (uvOrigOf model e.link)) := by
  obtain ⟨g1, g2, g3⟩ := accsFrom_get model (emittedLinks model) 0 0 k e h
  have hlen2 : (verticesOf model e.link).length =
      (pointsOf model e.link).length := by
    simp [verticesOf]
  refine ⟨uvAccessorOf model e.link
      (0 + vTot model ((emittedLinks model).take k)),
    vTot model ((emittedLinks model).take k) +
      (posFloats model e.link).length, ?_, ?_, ?_, ?_⟩
  · rw [export_accessors_eq]
    exact g2
  · simp [uvAccessorOf]
  · simp [uvAccessorOf, uvEmitted, padUV_length]
    exact hlen2
  · have hcnt : 2 * (uvAccessorOf model e.link
        (0 + vTot model ((emittedLinks model).take k))).count =
        (uvFloats model e.link).length := by
      simp [uvAccessorOf, uvFloats, flat2_length]
    rw [export_vertexStream_eq, vertexStreamOf, hcnt,
      uvSlice_emit model (emittedLinks model) k e h]
    rw [uvFloats, uvEmitted, hlen2]

/-- C4 witness at `modelPad` (5 points, 3 UVs): the single emitted link's UV
accessor has 5 entries; its data is the 3 original entries followed by two
`(0,0)`. -/
theorem spec_C4_witness :
    ∃ acc voff,
      (export_to_gltf modelPad).accessors.get? (3 * 0 + 1) = some acc ∧
      acc.byteOffset = 4 * voff ∧
      acc.count = (pointsOf modelPad ⟨0, 0, 0, 0⟩).length ∧
      ((export_to_gltf modelPad).vertexStream.drop voff).take
          (2 * acc.count) =
        flat2 (padUV (pointsOf modelPad ⟨0, 0, 0, 0⟩).length
          (uvOrigOf modelPad ⟨0, 0, 0, 0⟩)) :=
  spec_C4_uv_reconciliation modelPad 0 ⟨0, 0, 0, "idle", ⟨0, 0, 0, 0⟩⟩
    (by rfl)

/-- C5 counterexample: an animation with `meshes = [0, 5]` where mesh index 5
is out of range produces only one frame-group of nodes (and only one node),
not `len(animation.meshes) = 2`: line 622 skips the whole frame with a
warning. -/
theorem spec_C5_counterexample :
    frameGroupCount modelBadFrame 0 = 1 ∧
    modelBadFrame.animations.map (fun an => an.meshes.length) = [2] ∧
    (export_to_gltf modelBadFrame).nodes.length = 1 ∧
    (1 : Nat) ≠ 2 := by
  refine ⟨?_, rfl, ?_, by decide⟩
  · with_unfolding_all rfl
  · with_unfolding_all rfl

/-- C5 amended: the number of frame-groups of an animation equals the number
of its frame entries whose mesh index is in range *and* whose mesh has at
least one emitted link (`frameGood`); frames with out-of-range mesh indices
(and frames whose mesh yields no emitted link) produce no nodes.  Every
produced frame index is below `anim.meshes.length`, so `frameGroupCount`'s
range is exhaustive. -/
theorem spec_C5_frame_groups (model : Model) (a : Nat) (anim : DbAnimation)
    (ha : model.animations.get? a = some anim) :
    frameGroupCount model a =
      (anim.meshes.filter (frameGood model)).length ∧
    ∀ e ∈ emittedLinks model, e.animIdx = a →
      e.frameIdx < anim.meshes.length := by
  constructor
  · simp only [frameGroupCount, ha]
    rw [List.filter_congr
      (fun fi _ => frame_any_iff model a anim ha fi)]
    exact countP_range_get (frameGood model) anim.meshes
  · intro e he hea
    obtain ⟨hg, anim2, ha2, hn, mi, mesh, hmi, hm, hl⟩ :=
      (emittedLinks_mem model e).mp he
    rw [hea, ha] at ha2
    have h2 : anim2 = anim := (Option.some.inj ha2).symm
    subst h2
    by_contra hc
    rw [List.get?_eq_none.mpr (Nat.le_of_not_lt hc)] at hmi
    exact Option.noConfusion hmi

/-- C5 witness at `modelBadFrame`: one good frame out of two. -/
theorem spec_C5_witness :
    frameGroupCount modelBadFrame 0 =
      ((⟨"idle", [0, 5]⟩ : DbAnimation).meshes.filter
        (frameGood modelBadFrame)).length ∧
    ∀ e ∈ emittedLinks modelBadFrame, e.animIdx = 0 →
      e.frameIdx < (⟨"idle", [0, 5]⟩ : DbAnimation).meshes.length :=
  spec_C5_frame_groups modelBadFrame 0 ⟨"idle", [0, 5]⟩ (by rfl)

/-- C6 counterexample: with an *empty* material table, the out-of-range
material index 0 is "substituted" by 0 again, so the emitted primitive still
carries a dangling material reference (0 is not below the table size 0). -/
theorem spec_C6_counterexample :
    (export_to_gltf modelNoMats).gltfMeshes = [⟨[⟨0, 1, 2, 0⟩]⟩] ∧
    modelNoMats.materials.length = 0 ∧
    ¬ (0 < modelNoMats.materials.length) := by
  refine ⟨?_, rfl, by decide⟩
  with_unfolding_all rfl

/-- C6 amended: an emitted link whose material index is out of range yields a
primitive bound to material 0 with an `invalidMaterial` warning recorded;
*provided the model has at least one material*, no emitted primitive carries
a dangling material reference (with an empty table the fallback 0 itself
dangles, as the counterexample shows). -/
theorem spec_C6_material_fallback (model : Model) (k : Nat) (e : Emit)
    (h : (emittedLinks model).get? k = some e)
    (hbm : model.materials.length ≤ e.link.material) :
    (export_to_gltf model).gltfMeshes.get? k =
      some ⟨[⟨3 * k, 3 * k + 1, 3 * k + 2, 0⟩]⟩ ∧
    Warning.invalidMaterial e.animIdx e.frameIdx e.linkIdx ∈
      (export_to_gltf model).warnings ∧
    (0 < model.materials.length →
      ∀ gm ∈ (export_to_gltf model).gltfMeshes, ∀ p ∈ gm.primitives,
        p.material < model.materials.length) := by
  refine ⟨?_, ?_, ?_⟩
  · rw [export_gltfMeshes_eq, gmFrom_get model (emittedLinks model) 0 k e h]
    have hmi : matIndexOf model e.link = 0 := by
      unfold matIndexOf
      rw [if_pos hbm]
    rw [hmi]
    norm_num
  · exact export_invalidMaterial_warning model e (List.get?_mem h) hbm
  · intro hpos gm hgm p hp
    rw [export_gltfMeshes_eq] at hgm
    obtain ⟨e2, he2, m, hm⟩ := gmFrom_mem model (emittedLinks model) 0 gm hgm
    subst hm
    simp only [GltfMesh.mk.injEq] at hp
    rw [List.mem_singleton] at hp
    subst hp
    exact matIndexOf_lt model e2.link hpos

/-- C6 witness at `modelBadMat` (one material, link material index 1). -/
theorem spec_C6_witness :
    (export_to_gltf modelBadMat).gltfMeshes.get? 0 =
      some ⟨[⟨3 * 0, 3 * 0 + 1, 3 * 0 + 2, 0⟩]⟩ ∧
    Warning.invalidMaterial 0 0 0 ∈ (export_to_gltf modelBadMat).warnings ∧
    (0 < modelBadMat.materials.length →
      ∀ gm ∈ (export_to_gltf modelBadMat).gltfMeshes, ∀ p ∈ gm.primitives,
        p.material < modelBadMat.materials.length) :=
  spec_C6_material_fallback modelBadMat 0 ⟨0, 0, 0, "idle", ⟨1, 0, 0, 0⟩⟩
    (by rfl) (by decide)

/-- C7: bad links are skipped in isolation and serialization never aborts:
the node list is exactly one node per emitted link in traversal order
(`ndFrom`), and a traversal position is emitted iff its link resolves
in-range, nonempty points and triangles pool entries (`goodLink`) — a link
failing those checks is skipped while every other link still produces its
node. -/
theorem spec_C7_link_isolation (model : Model) :
    (export_to_gltf model).nodes = ndFrom model (emittedLinks model) 0 ∧
    (export_to_gltf model).nodes.length = (emittedLinks model).length ∧
    (∀ e : Emit, e ∈ emittedLinks model ↔
      (goodLink model e.link = true ∧
        ∃ anim, model.animations.get? e.animIdx = some anim ∧
          e.animName = anim.name ∧
          ∃ mi mesh, anim.meshes.get? e.frameIdx = some mi ∧
            model.meshes.get? mi = some mesh ∧
            mesh.links.get? e.linkIdx = some e.link)) := by
  refine ⟨export_nodes_eq model, ?_, fun e => emittedLinks_mem model e⟩
  rw [export_nodes_eq, ndFrom_length]

/-- C8: for every emitted link, the recorded position accessor's `min`/`max`
are exactly the per-axis minima/maxima of the transformed vertex list that
the link actually contributed to the vertex stream (the slice at the
accessor's byte offset of `3 * count` packed floats equals that list,
flattened), and each recorded bound is attained by, and bounds, the emitted
vertex set. -/
theorem spec_C8_bounds (model : Model) (k : Nat) (e : Emit)
    (h : (emittedLinks model).get? k = some e) :
    ∃ acc voff,
      (export_to_gltf model).accessors.get? (3 * k) = some acc ∧
      acc.byteOffset = 4 * voff ∧
      acc.count = (verticesOf model e.link).length ∧
      ((export_to_gltf model).vertexStream.drop voff).take (3 * acc.count) =
        flat3 (verticesOf model e.link) ∧
      acc.min = some (minsOf (verticesOf model e.link)) ∧
      acc.max = some (maxsOf (verticesOf model e.link)) ∧
      isLeastOf (listMinQ ((verticesOf model e.link).map fun v => v.1))
        ((verticesOf model e.link).map fun v => v.1) ∧
      isLeastOf (listMinQ ((verticesOf model e.link).map fun v => v.2.1))
        ((verticesOf model e.link).map fun v => v.2.1) ∧
      isLeastOf (listMinQ ((verticesOf model e.link).map fun v => v.2.2))
        ((verticesOf model e.link).map fun v => v.2.2) ∧
      isGreatestOf (listMaxQ ((verticesOf model e.link).map fun v => v.1))
        ((verticesOf model e.link).map fun v => v.1) ∧
      isGreatestOf (listMaxQ ((verticesOf model e.link).map fun v => v.2.1))
        ((verticesOf model e.link).map fun v => v.2.1) ∧
      isGreatestOf (listMaxQ ((verticesOf model e.link).map fun v => v.2.2))
        ((verticesOf model e.link).map fun v => v.2.2) := by
  obtain ⟨g1, g2, g3⟩ := accsFrom_get model (emittedLinks model) 0 0 k e h
  have hpne : pointsOf model e.link ≠ [] :=
    emitted_points_ne_nil model e (List.get?_mem h)
  have hne : verticesOf model e.link ≠ [] := by
    unfold verticesOf
    simpa using hpne
  refine ⟨posAccessorOf model e.link
      (0 + vTot model ((emittedLinks model).take k)),
    vTot model ((emittedLinks model).take k),
    ?_, ?_, ?_, ?_, ?_, ?_,
    listMinQ_least_map _ _ hne, listMinQ_least_map _ _ hne,
    listMinQ_least_map _ _ hne, listMaxQ_greatest_map _ _ hne,
    listMaxQ_greatest_map _ _ hne, listMaxQ_greatest_map _ _ hne⟩
  · rw [export_accessors_eq]
    exact g1
  · simp [posAccessorOf]
  · simp [posAccessorOf]
  · have hcnt : 3 * (posAccessorOf model e.link
        (0 + vTot model ((emittedLinks model).take k))).count =
        (posFloats model e.link).length := by
      simp [posAccessorOf, posFloats, flat3_length]
    rw [export_vertexStream_eq, vertexStreamOf, hcnt,
      posSlice_emit model (emittedLinks model) k e h]
    rw [posFloats]
  · simp [posAccessorOf]
  · simp [posAccessorOf]

/-- C8 witness at the concrete scenario. -/
theorem spec_C8_witness :
    ∃ acc voff,
      (export_to_gltf modelConcrete).accessors.get? (3 * 0) = some acc ∧
      acc.byteOffset = 4 * voff ∧
      acc.count = (verticesOf modelConcrete ⟨0, 0, 0, 0⟩).length ∧
      ((export_to_gltf modelConcrete).vertexStream.drop voff).take
          (3 * acc.count) =
        flat3 (verticesOf modelConcrete ⟨0, 0, 0, 0⟩) ∧
      acc.min = some (minsOf (verticesOf modelConcrete ⟨0, 0, 0, 0⟩)) ∧
      acc.max = some (maxsOf (verticesOf modelConcrete ⟨0, 0, 0, 0⟩)) ∧
      isLeastOf
        (listMinQ ((verticesOf modelConcrete ⟨0, 0, 0, 0⟩).map fun v => v.1))
        ((verticesOf modelConcrete ⟨0, 0, 0, 0⟩).map fun v => v.1) ∧
      isLeastOf
        (listMinQ ((verticesOf modelConcrete ⟨0, 0, 0, 0⟩).map fun v => v.2.1))
        ((verticesOf modelConcrete ⟨0, 0, 0, 0⟩).map fun v => v.2.1) ∧
      isLeastOf
        (listMinQ ((verticesOf modelConcrete ⟨0, 0, 0, 0⟩).map fun v => v.2.2))
        ((verticesOf modelConcrete ⟨0, 0, 0, 0⟩).map fun v => v.2.2) ∧
      isGreatestOf
        (listMaxQ ((verticesOf modelConcrete ⟨0, 0, 0, 0⟩).map fun v => v.1))
        ((verticesOf modelConcrete ⟨0, 0, 0, 0⟩).map fun v => v.1) ∧
      isGreatestOf
        (listMaxQ ((verticesOf modelConcrete ⟨0, 0, 0, 0⟩).map fun v => v.2.1))
        ((verticesOf modelConcrete ⟨0, 0, 0, 0⟩).map fun v => v.2.1) ∧
      isGreatestOf
        (listMaxQ ((verticesOf modelConcrete ⟨0, 0, 0, 0⟩).map fun v => v.2.2))
        ((verticesOf modelConcrete ⟨0, 0, 0, 0⟩).map fun v => v.2.2) :=
  spec_C8_bounds modelConcrete 0 ⟨0, 0, 0, "idle", ⟨0, 0, 0, 0⟩⟩ (by rfl)

/-- C9: two emitted links referencing the same points pool index contribute
identical position data to the vertex stream: the slices at their position
accessors' offsets are equal (the packed bytes are a deterministic function
of these equal float values). -/
theorem spec_C9_pool_sharing (model : Model) (k1 k2 : Nat) (e1 e2 : Emit)
    (h1 : (emittedLinks model).get? k1 = some e1)
    (h2 : (emittedLinks model).get? k2 = some e2)
    (hp : e1.link.points = e2.link.points) :
    ∃ a1 a2 v1 v2,
      (export_to_gltf model).accessors.get? (3 * k1) = some a1 ∧
      (export_to_gltf model).accessors.get? (3 * k2) = some a2 ∧
      a1.byteOffset = 4 * v1 ∧ a2.byteOffset = 4 * v2 ∧
      a1.count = a2.count ∧
      ((export_to_gltf model).vertexStream.drop v1).take (3 * a1.count) =
        ((export_to_gltf model).vertexStream.drop v2).take (3 * a2.count) := by
  obtain ⟨g1, _, _⟩ := accsFrom_get model (emittedLinks model) 0 0 k1 e1 h1
  obtain ⟨g2, _, _⟩ := accsFrom_get model (emittedLinks model) 0 0 k2 e2 h2
  have hv : verticesOf model e1.link = verticesOf model e2.link :=
    verticesOf_points_eq model e1.link e2.link hp
  refine ⟨posAccessorOf model e1.link
      (0 + vTot model ((emittedLinks model).take k1)),
    posAccessorOf model e2.link
      (0 + vTot model ((emittedLinks model).take k2)),
    vTot model ((emittedLinks model).take k1),
    vTot model ((emittedLinks model).take k2),
    ?_, ?_, ?_, ?_, ?_, ?_⟩
  · rw [export_accessors_eq]
    exact g1
  · rw [export_accessors_eq]
    exact g2
  · simp [posAccessorOf]
  · simp [posAccessorOf]
  · simp [posAccessorOf, hv]
  · have hc1 : 3 * (posAccessorOf model e1.link
        (0 + vTot model ((emittedLinks model).take k1))).count =
        (posFloats model e1.link).length := by
      simp [posAccessorOf, posFloats, flat3_length]
    have hc2 : 3 * (posAccessorOf model e2.link
        (0 + vTot model ((emittedLinks model).take k2))).count =
        (posFloats model e2.link).length := by
      simp [posAccessorOf, posFloats, flat3_length]
    rw [export_vertexStream_eq, vertexStreamOf, hc1, hc2,
      posSlice_emit model (emittedLinks model) k1 e1 h1,
      posSlice_emit model (emittedLinks model) k2 e2 h2]
    rw [posFloats, posFloats, hv]

/-- C9 witness at `modelShared`: two links in one mesh share points pool
entry 0 (with different triangles/UV entries); their position slices are
equal. -/
theorem spec_C9_witness :
    ∃ a1 a2 v1 v2,
      (export_to_gltf modelShared).accessors.get? (3 * 0) = some a1 ∧
      (export_to_gltf modelShared).accessors.get? (3 * 1) = some a2 ∧
      a1.byteOffset = 4 * v1 ∧ a2.byteOffset = 4 * v2 ∧
      a1.count = a2.count ∧
      ((export_to_gltf modelShared).vertexStream.drop v1).take
          (3 * a1.count) =
        ((export_to_gltf modelShared).vertexStream.drop v2).take
          (3 * a2.count) :=
  spec_C9_pool_sharing modelShared 0 1 ⟨0, 0, 0, "idle", ⟨0, 0, 0, 0⟩⟩
    ⟨0, 0, 1, "idle", ⟨0, 0, 1, 1⟩⟩ (by rfl) (by rfl) (by rfl)

/-- C10: skipping a link is atomic.  Whenever a link fails resolution or has
empty points/triangles (`goodLink = false` — exactly the skip conditions,
including the exception path), `processLink` leaves the UV pool, both byte
streams and the accessor/mesh/node lists exactly as they were, appending
only one warning. -/
theorem spec_C10_skip_atomic (model : Model) (an : String) (a f l : Nat)
    (link : MeshLink) (s : ExportState)
    (hlen : s.uvPool.length = model.texture_coordinates_data.length)
    (hbad : goodLink model link = false) :
    (processLink model an a f l link s).uvPool = s.uvPool ∧
    (processLink model an a f l link s).vertexStream = s.vertexStream ∧
    (processLink model an a f l link s).indexStream = s.indexStream ∧
    (processLink model an a f l link s).accessors = s.accessors ∧
    (processLink model an a f l link s).gltfMeshes = s.gltfMeshes ∧
    (processLink model an a f l link s).nodes = s.nodes ∧
    ∃ w, (processLink model an a f l link s).warnings = s.warnings ++ [w] := by
  obtain ⟨w, heq⟩ := processLink_bad model an a f l link s hlen hbad
  rw [heq]
  exact ⟨rfl, rfl, rfl, rfl, rfl, rfl, w, rfl⟩

/-- C10 witness: the first link of `modelBadLink` has points pool index 7
(out of range) and is skipped without touching the output state. -/
theorem spec_C10_witness :
    (processLink modelBadLink ("idle") 0 0 0 ⟨0, 7, 0, 0⟩
      ⟨modelBadLink.texture_coordinates_data, [], [], [], [], [],
       []⟩).uvPool =
      (⟨modelBadLink.texture_coordinates_data, [], [], [], [], [],
        []⟩ : ExportState).uvPool ∧
    (processLink modelBadLink ("idle") 0 0 0 ⟨0, 7, 0, 0⟩
      ⟨modelBadLink.texture_coordinates_data, [], [], [], [], [],
       []⟩).vertexStream =
      (⟨modelBadLink.texture_coordinates_data, [], [], [], [], [],
        []⟩ : ExportState).vertexStream ∧
    (processLink modelBadLink ("idle") 0 0 0 ⟨0, 7, 0, 0⟩
      ⟨modelBadLink.texture_coordinates_data, [], [], [], [], [],
       []⟩).indexStream =
      (⟨modelBadLink.texture_coordinates_data, [], [], [], [], [],
        []⟩ : ExportState).indexStream ∧
    (processLink modelBadLink ("idle") 0 0 0 ⟨0, 7, 0, 0⟩
      ⟨modelBadLink.texture_coordinates_data, [], [], [], [], [],
       []⟩).accessors =
      (⟨modelBadLink.texture_coordinates_data, [], [], [], [], [],
        []⟩ : ExportState).accessors ∧
    (processLink modelBadLink ("idle") 0 0 0 ⟨0, 7, 0, 0⟩
      ⟨modelBadLink.texture_coordinates_data, [], [], [], [], [],
       []⟩).gltfMeshes =
      (⟨modelBadLink.texture_coordinates_data, [], [], [], [], [],
        []⟩ : ExportState).gltfMeshes ∧
    (processLink modelBadLink ("idle") 0 0 0 ⟨0, 7, 0, 0⟩
      ⟨modelBadLink.texture_coordinates_data, [], [], [], [], [],
       []⟩).nodes =
      (⟨modelBadLink.texture_coordinates_data, [], [], [], [], [],
        []⟩ : ExportState).nodes ∧
    ∃ w, (processLink modelBadLink ("idle") 0 0 0 ⟨0, 7, 0, 0⟩
      ⟨modelBadLink.texture_coordinates_data, [], [], [], [], [],
       []⟩).warnings =
      (⟨modelBadLink.texture_coordinates_data, [], [], [], [], [],
        []⟩ : ExportState).warnings ++ [w] :=
  spec_C10_skip_atomic modelBadLink ("idle") 0 0 0 ⟨0, 7, 0, 0⟩
    ⟨modelBadLink.texture_coordinates_data, [], [], [], [], [], []⟩
    (by rfl) (by rfl)
